import Mathlib

/-!
sbgECom: GPS status words and the framed binary protocol.

A shallow embedding of the status-word helpers of `binaryLogs/binaryLogGps.h`, of the
frame constants of `protocol/protocol.h`, of the transport interface of
`interfaces/interface.h` and of the serial back end `interfaces/interfaceSerialUnix.c`, with
the properties their specification states.

Machine integers are natural numbers.  A `uint32` value is a natural number below `2 ^ 32`;
the C cast `(uint32)x` is `x % 2 ^ 32` and a `uint32` left shift is reduced modulo `2 ^ 32`.
The C enumerations (`SbgEComGpsVelStatus`, ...) are carried by their numeric value: the
source casts them from and to `uint32` without any validation.
-/

namespace SbgECom

/-! ## Machine arithmetic -/

/-- The C cast `(uint32)x` on a numeric value. -/
def toUint32 (x : Nat) : Nat := x % 2 ^ 32

/-- The C operator `<<` on a `uint32` operand: the bits shifted past bit 31 are lost. -/
def shl32 (x k : Nat) : Nat := (x <<< k) % 2 ^ 32

/-! ## `binaryLogGps.h`: constants -/

def SBG_ECOM_GPS_VEL_STATUS_SHIFT : Nat := 0
def SBG_ECOM_GPS_VEL_STATUS_MASK : Nat := 0x0000003F
def SBG_ECOM_GPS_VEL_TYPE_SHIFT : Nat := 6
def SBG_ECOM_GPS_VEL_TYPE_MASK : Nat := 0x0000003F

def SBG_ECOM_GPS_POS_STATUS_SHIFT : Nat := 0
def SBG_ECOM_GPS_POS_STATUS_MASK : Nat := 0x0000003F
def SBG_ECOM_GPS_POS_TYPE_SHIFT : Nat := 6
def SBG_ECOM_GPS_POS_TYPE_MASK : Nat := 0x0000003F

def SBG_ECOM_GPS_POS_GPS_L1_USED : Nat := shl32 0x00000001 12
def SBG_ECOM_GPS_POS_GPS_L2_USED : Nat := shl32 0x00000001 13
def SBG_ECOM_GPS_POS_GPS_L5_USED : Nat := shl32 0x00000001 14
def SBG_ECOM_GPS_POS_GLO_L1_USED : Nat := shl32 0x00000001 15
def SBG_ECOM_GPS_POS_GLO_L2_USED : Nat := shl32 0x00000001 16

def SBG_ECOM_GPS_HDT_STATUS_SHIFT : Nat := 0
def SBG_ECOM_GPS_HDT_STATUS_MASK : Nat := 0x0000003F

/-! ## `binaryLogGps.h`: velocity status helpers -/

/-- Read the GPS velocity status from a status field. -/
def sbgEComLogGpsVelGetStatus (status : Nat) : Nat :=
  (status >>> SBG_ECOM_GPS_VEL_STATUS_SHIFT) &&& SBG_ECOM_GPS_VEL_STATUS_MASK

/-- Read the GPS velocity type from a status field. -/
def sbgEComLogGpsVelGetType (status : Nat) : Nat :=
  (status >>> SBG_ECOM_GPS_VEL_TYPE_SHIFT) &&& SBG_ECOM_GPS_VEL_TYPE_MASK

/-- Build the GPS velocity status field from a status and a type. -/
def sbgEComLogGpsVelBuildStatus (status type : Nat) : Nat :=
  shl32 (toUint32 status &&& SBG_ECOM_GPS_VEL_STATUS_MASK) SBG_ECOM_GPS_VEL_STATUS_SHIFT |||
    shl32 (toUint32 type &&& SBG_ECOM_GPS_VEL_TYPE_MASK) SBG_ECOM_GPS_VEL_TYPE_SHIFT

/-! ## `binaryLogGps.h`: position status helpers -/

/-- Read the GPS position status from a status field. -/
def sbgEComLogGpsPosGetStatus (status : Nat) : Nat :=
  (status >>> SBG_ECOM_GPS_POS_STATUS_SHIFT) &&& SBG_ECOM_GPS_POS_STATUS_MASK

/-- Read the GPS position type from a status field. -/
def sbgEComLogGpsPosGetType (status : Nat) : Nat :=
  (status >>> SBG_ECOM_GPS_POS_TYPE_SHIFT) &&& SBG_ECOM_GPS_POS_TYPE_MASK

/-- Build the GPS position status field from a status, a type and a bit mask. -/
def sbgEComLogGpsPosBuildStatus (status type masks : Nat) : Nat :=
  shl32 (toUint32 status &&& SBG_ECOM_GPS_POS_STATUS_MASK) SBG_ECOM_GPS_POS_STATUS_SHIFT |||
    shl32 (toUint32 type &&& SBG_ECOM_GPS_POS_TYPE_MASK) SBG_ECOM_GPS_POS_TYPE_SHIFT |||
    masks

/-! ## `binaryLogGps.h`: heading (HDT) status helpers -/

/-- Read the GPS HDT status from a status field. -/
def sbgEComLogGpsHdtGetStatus (status : Nat) : Nat :=
  (status >>> SBG_ECOM_GPS_HDT_STATUS_SHIFT) &&& SBG_ECOM_GPS_HDT_STATUS_MASK

/-- Build the GPS HDT status field from a status and a bit mask. -/
def sbgEComLogGpsHdtBuildStatus (status masks : Nat) : Nat :=
  shl32 (toUint32 status &&& SBG_ECOM_GPS_HDT_STATUS_MASK) SBG_ECOM_GPS_HDT_STATUS_SHIFT |||
    masks

/-! ## `protocol.h`: frame constants -/

/-- Maximum reception buffer size in bytes. -/
def SBG_ECOM_MAX_BUFFER_SIZE : Nat := 4096
/-- Maximum payload size in bytes. -/
def SBG_ECOM_MAX_PAYLOAD_SIZE : Nat := 4086
/-- First synchronization char of the frame. -/
def SBG_ECOM_SYNC_1 : Nat := 0xFF
/-- Second synchronization char of the frame. -/
def SBG_ECOM_SYNC_2 : Nat := 0x5A
/-- End of frame byte. -/
def SBG_ECOM_ETX : Nat := 0x33

/-- Total size in bytes of a frame carrying `n` bytes of data, field by field as in the frame
structure table of `protocol.h`: SYNC 1 (1), SYNC 2 (1), CMD (2), LEN (2), DATA (`n`),
CRC (2), ETX (1). -/
def frameSize (n : Nat) : Nat := 1 + 1 + 2 + 2 + n + 2 + 1

/-! ## Frame codec

`protocol.h` declares `sbgEComProtocolSend` and `sbgEComProtocolReceive`; their bodies
(`protocol.c`) and the CRC routine (`misc/sbgCrc`) are not among the sources.  The codec below
follows section 4.2 of the specification.  Bytes are natural numbers, a buffer is a list of
bytes, and the two-byte fields are stored low byte first. -/

/-- Modelled from the spec: the 16-bit value of the CRC engine `crc16(bytes) -> uint16` on a
byte range.  The algorithm itself is absent (`misc/sbgCrc`), so the checksum function is the
parameter `crc`; its result is reduced to 16 bits. -/
def crc16 (crc : List Nat → Nat) (bytes : List Nat) : Nat := crc bytes % 2 ^ 16

/-- Modelled from the spec: a 16-bit field (COMMAND, LENGTH, CRC) on the wire, two bytes, low
byte first. -/
def writeUint16 (x : Nat) : List Nat := [x % 256, x / 256 % 256]

/-- Modelled from the spec: the 16-bit field read back from its two wire bytes. -/
def readUint16 (lo hi : Nat) : Nat := lo + 256 * hi

/-- Modelled from the spec: the failure of `encode` (section 4.2). -/
inductive EncodeError where
  | PayloadTooLarge
deriving DecidableEq, Repr

/-- Modelled from the spec: `encode(command, payload) -> bytes` of section 4.2, the frame that
`sbgEComProtocolSend` writes: `SYNC1 · SYNC2 · COMMAND(2B) · LENGTH(2B) · PAYLOAD · CRC(2B,
over COMMAND‖LENGTH‖PAYLOAD) · ETX`; fails with `PayloadTooLarge` if the payload is longer
than 4086 bytes. -/
def encode (crc : List Nat → Nat) (command : Nat) (payload : List Nat) :
    Except EncodeError (List Nat) :=
  if payload.length > SBG_ECOM_MAX_PAYLOAD_SIZE then
    .error .PayloadTooLarge
  else
    let body := writeUint16 command ++ writeUint16 payload.length ++ payload
    .ok ([SBG_ECOM_SYNC_1, SBG_ECOM_SYNC_2] ++ body ++ writeUint16 (crc16 crc body) ++
      [SBG_ECOM_ETX])

/-- Modelled from the spec: the result of `scan(buffer)` of section 4.2,
`Frame+bytesConsumed | Incomplete | Invalid+bytesToSkip`.  Byte counts are taken from the
front of the scanned buffer. -/
inductive ScanResult where
  | Frame (command : Nat) (payload : List Nat) (bytesConsumed : Nat)
  | Incomplete
  | Invalid (bytesToSkip : Nat)
deriving DecidableEq, Repr

/-- Modelled from the spec: steps 2 to 6 of `scan` (section 4.2) on the bytes `rest` that
follow a matched pair of sync bytes, `skipped` bytes having been passed over before that pair.
Step 2 requires the 4 header bytes, step 3 rejects a LENGTH above 4086 with bytesToSkip = 2,
step 4 waits for the 9 + LENGTH bytes of the candidate, step 5 checks ETX and the CRC over
COMMAND‖LENGTH‖PAYLOAD, step 6 returns the frame and the 9 + LENGTH bytes consumed. -/
def scanCandidate (crc : List Nat → Nat) (rest : List Nat) (skipped : Nat) : ScanResult :=
  match rest with
  | c0 :: c1 :: l0 :: l1 :: data =>
    let length := readUint16 l0 l1
    if length > SBG_ECOM_MAX_PAYLOAD_SIZE then
      .Invalid (skipped + 2)
    else if data.length < length + 3 then
      .Incomplete
    else
      let payload := data.take length
      match data.drop length with
      | k0 :: k1 :: etx :: _ =>
        if etx = SBG_ECOM_ETX ∧ readUint16 k0 k1 = crc16 crc ([c0, c1, l0, l1] ++ payload) then
          .Frame (readUint16 c0 c1) payload (skipped + 9 + length)
        else
          .Invalid (skipped + 2)
      | _ => .Incomplete
  | _ => .Incomplete

/-- Modelled from the spec: step 1 of `scan` (section 4.2): search for SYNC1 immediately
followed by SYNC2, passing over one byte at a time, then examine the candidate; `skipped`
counts the bytes passed over.  A buffer without the sync pair holds no frame yet. -/
def scanFrom (crc : List Nat → Nat) : List Nat → Nat → ScanResult
  | b0 :: b1 :: rest, skipped =>
    if b0 = SBG_ECOM_SYNC_1 ∧ b1 = SBG_ECOM_SYNC_2 then
      scanCandidate crc rest skipped
    else
      scanFrom crc (b1 :: rest) (skipped + 1)
  | _, _ => .Incomplete

/-- Modelled from the spec: `scan(buffer) -> Frame+bytesConsumed | Incomplete |
Invalid+bytesToSkip` of section 4.2, the streaming scanner behind
`sbgEComProtocolReceive`. -/
def scan (crc : List Nat → Nat) (buffer : List Nat) : ScanResult :=
  scanFrom crc buffer 0

/-! ## Frame codec: the scanner with its buffer accesses

The same scanner, reading the buffer byte by byte at explicit indices.  Every access is
attempted at the index asked for and recorded; an access at or past the number of buffered
bytes is an out-of-bounds read and aborts the scan. -/

/-- Modelled from the spec: the outcome of `scan(buffer)` together with the indices of the
buffer that the scanner read, in order.  The result is `none` when the scanner read an index
at or beyond the buffered data. -/
structure TracedScan where
  result : Option ScanResult
  reads : List Nat
deriving DecidableEq, Repr

/-- Modelled from the spec: read `n` consecutive bytes from index `start` (the payload of a
candidate frame); `none` when one of them lies beyond the buffered data. -/
def readRange (buffer : List Nat) : (start n : Nat) → Option (List Nat)
  | _, 0 => some []
  | start, n + 1 =>
    match buffer[start]?, readRange buffer (start + 1) n with
    | some b, some bs => some (b :: bs)
    | _, _ => none

/-- Modelled from the spec: steps 2 to 6 of `scan` (section 4.2) on a sync pair found at
index `i`, with the accesses made so far in `reads`.  Each step first requires the bytes it
needs to be buffered (step 2: the 4 header bytes; step 4: the 9 + LENGTH bytes of the
candidate) and only then reads them. -/
def scanCandidateTraced (crc : List Nat → Nat) (buffer : List Nat) (i : Nat)
    (reads : List Nat) : TracedScan :=
  if buffer.length < i + 6 then
    ⟨some .Incomplete, reads⟩
  else
    let reads := reads ++ [i + 2, i + 3, i + 4, i + 5]
    match buffer[i + 2]?, buffer[i + 3]?, buffer[i + 4]?, buffer[i + 5]? with
    | some c0, some c1, some l0, some l1 =>
      let length := readUint16 l0 l1
      if length > SBG_ECOM_MAX_PAYLOAD_SIZE then
        ⟨some (.Invalid (i + 2)), reads⟩
      else if buffer.length < i + 9 + length then
        ⟨some .Incomplete, reads⟩
      else
        let reads := reads ++ List.range' (i + 6) (length + 3)
        match readRange buffer (i + 6) length, buffer[i + 6 + length]?,
            buffer[i + 7 + length]?, buffer[i + 8 + length]? with
        | some payload, some k0, some k1, some etx =>
          if etx = SBG_ECOM_ETX ∧
              readUint16 k0 k1 = crc16 crc ([c0, c1, l0, l1] ++ payload) then
            ⟨some (.Frame (readUint16 c0 c1) payload (i + 9 + length)), reads⟩
          else
            ⟨some (.Invalid (i + 2)), reads⟩
        | _, _, _, _ => ⟨none, reads⟩
    | _, _, _, _ => ⟨none, reads⟩

/-- Modelled from the spec: step 1 of `scan` (section 4.2) from index `i`: while two bytes
are buffered at `i`, read them; a sync pair starts a candidate, anything else moves the
search one byte on.  `remaining` bounds the positions still to try. -/
def scanFromTraced (crc : List Nat → Nat) (buffer : List Nat) :
    (remaining i : Nat) → (reads : List Nat) → TracedScan
  | 0, _, reads => ⟨some .Incomplete, reads⟩
  | remaining + 1, i, reads =>
    if buffer.length < i + 2 then
      ⟨some .Incomplete, reads⟩
    else
      match buffer[i]?, buffer[i + 1]? with
      | some b0, some b1 =>
        if b0 = SBG_ECOM_SYNC_1 ∧ b1 = SBG_ECOM_SYNC_2 then
          scanCandidateTraced crc buffer i (reads ++ [i, i + 1])
        else
          scanFromTraced crc buffer remaining (i + 1) (reads ++ [i, i + 1])
      | _, _ => ⟨none, reads ++ [i, i + 1]⟩

/-- Modelled from the spec: `scan(buffer)` of section 4.2 with its buffer accesses
recorded. -/
def scanTraced (crc : List Nat → Nat) (buffer : List Nat) : TracedScan :=
  scanFromTraced crc buffer buffer.length 0 []

/-! ## `interface.h`: the transport interface

A pointer argument that may be `NULL` is an `Option`, `none` being `NULL`.  Dereferencing
`NULL` and calling through a `NULL` function pointer are faults, reported as errors of the
model. -/

/-- Modelled from the spec: the `SbgErrorCode` enumeration of `sbgCommon.h`, which is not
among the sources.  Only the codes that the sources name are listed, as distinct values. -/
inductive SbgErrorCode where
  | SBG_NO_ERROR
  | SBG_ERROR
  | SBG_NULL_POINTER
  | SBG_INVALID_PARAMETER
  | SBG_WRITE_ERROR
  | SBG_READ_ERROR
  | SBG_NOT_READY
  | SBG_INVALID_CRC
  | SBG_BUFFER_OVERFLOW
deriving DecidableEq, Repr

/-- Define the interface type. -/
inductive SbgInterfaceType where
  | SBG_IF_TYPE_UNKNOW
  | SBG_IF_TYPE_SERIAL
  | SBG_IF_TYPE_ETH_UDP
  | SBG_IF_TYPE_ETH_TCP_IP
  | SBG_IF_TYPE_FILE
deriving DecidableEq, Repr

/-- What a non-NULL `SbgInterfaceWriteFunc` pointer designates: the serial write method of
`interfaceSerialUnix.c`, or a method at some other address. -/
inductive SbgInterfaceWriteFunc where
  | sbgInterfaceSerialWrite
  | other (address : Nat)
deriving DecidableEq, Repr

/-- What a non-NULL `SbgInterfaceReadFunc` pointer designates: the serial read method of
`interfaceSerialUnix.c`, or a method at some other address. -/
inductive SbgInterfaceReadFunc where
  | sbgInterfaceSerialRead
  | other (address : Nat)
deriving DecidableEq, Repr

/-- What a non-NULL `SbgInterfaceIsValidFunc` pointer designates.  The sources define no such
method, so it is a method at some address. -/
inductive SbgInterfaceIsValidFunc where
  | other (address : Nat)
deriving DecidableEq, Repr

/-- The `NULL` value of the `void*` interface handle. -/
def NULL : Nat := 0

/-- Interface definition that stores methods used to communicate on the interface.  The
handle (`void*`) is carried by its pointer-sized numeric value. -/
structure SbgInterface where
  handle : Nat
  type : SbgInterfaceType
  pWriteFunc : Option SbgInterfaceWriteFunc
  pReadFunc : Option SbgInterfaceReadFunc
  pIsValidFunc : Option SbgInterfaceIsValidFunc
deriving DecidableEq, Repr

/-- The faults of the C code that the model makes explicit. -/
inductive Fault where
  | nullPointerDereference
  | nullFunctionCall
deriving DecidableEq, Repr

/-- Initialize an interface structure to zero; the result is the structure that `pHandle`
points to after the call. -/
def sbgInterfaceZeroInit (pHandle : Option SbgInterface) : Except Fault SbgInterface :=
  match pHandle with
  | none => .error .nullPointerDereference
  | some s0 =>
    let s1 := { s0 with handle := NULL }
    let s2 := { s1 with type := .SBG_IF_TYPE_UNKNOW }
    let s3 := { s2 with pWriteFunc := none }
    let s4 := { s3 with pReadFunc := none }
    let s5 := { s4 with pIsValidFunc := none }
    .ok s5

/-- Returns true if this interface seems to be up and running:
`return pHandle->pIsValidFunc(pHandle);`.  `callIsValid` runs the designated method. -/
def sbgInterfaceIsValid (callIsValid : SbgInterfaceIsValidFunc → SbgInterface → Bool)
    (pHandle : Option SbgInterface) : Except Fault Bool :=
  match pHandle with
  | none => .error .nullPointerDereference
  | some s =>
    match s.pIsValidFunc with
    | none => .error .nullFunctionCall
    | some f => .ok (callIsValid f s)

/-! ## `interfaceSerialUnix.c`: the platform

The serial back end is written against `termios.h`, `fcntl.h` and `unistd.h`.  Their
constants are not part of the sources and differ between Unix platforms, so they are
parameters; the outcome of every external call is a parameter as well. -/

/-- The `struct termios` of the platform: the four flag words (`tcflag_t`, 32 bits), the
control characters, and the input and output speeds that `cfsetispeed` and `cfsetospeed`
record. -/
structure Termios where
  c_iflag : Nat
  c_oflag : Nat
  c_cflag : Nat
  c_lflag : Nat
  c_cc : List Nat
  ispeed : Nat
  ospeed : Nat
deriving DecidableEq, Repr

/-- The constants of the platform headers that `interfaceSerialUnix.c` names, the width of
a pointer, and what the library calls `cfsetispeed` and `cfsetospeed` leave in the options
structure when they succeed (on some platforms they rewrite the baud bits of `c_cflag`).  A
baud rate constant guarded by `#ifdef` in the source is optional. -/
structure Platform where
  pointerBits : Nat
  cfsetispeed : Termios → Nat → Termios
  cfsetospeed : Termios → Nat → Termios
  B9600 : Nat
  B19200 : Nat
  B38400 : Option Nat
  B57600 : Option Nat
  B115200 : Option Nat
  B230400 : Option Nat
  B460800 : Option Nat
  B921600 : Option Nat
  CLOCAL : Nat
  CREAD : Nat
  PARENB : Nat
  CSTOPB : Nat
  CSIZE : Nat
  CS8 : Nat
  CRTSCTS : Nat
  IGNBRK : Nat
  BRKINT : Nat
  PARMRK : Nat
  ISTRIP : Nat
  INLCR : Nat
  IGNCR : Nat
  ICRNL : Nat
  IXON : Nat
  ICANON : Nat
  ECHO : Nat
  ECHOE : Nat
  ISIG : Nat
  OPOST : Nat
  VMIN : Nat
  VTIME : Nat

/-- The C operator `~` on a 32-bit flag word. -/
def not32 (m : Nat) : Nat := 2 ^ 32 - 1 - m % 2 ^ 32

/-- The conversion `(void*)hSerialHandle` of an `int32` to a pointer: the value modulo the
pointer width. -/
def voidPtrOfInt32 (plat : Platform) (x : Int) : Nat := (x % 2 ^ plat.pointerBits).toNat

/-- The conversion `(int32)pHandle->handle` of a pointer to an `int32`: the low 32 bits, read
as a signed value. -/
def int32OfVoidPtr (p : Nat) : Int :=
  if p % 2 ^ 32 < 2 ^ 31 then (p % 2 ^ 32 : Nat) else (p % 2 ^ 32 : Nat) - 2 ^ 32

/-- The conversion of an `int` result to `uint32`. -/
def uint32OfInt (x : Int) : Nat := (x % 2 ^ 32).toNat

/-- The outcome of each external call that `sbgInterfaceSerialCreate` can make; `tcgetattr`
also fills the options structure. -/
structure SerialSyscalls where
  openResult : Int
  fcntlResult : Int
  tcgetattrResult : Int
  tcgetattrOptions : Termios
  cfsetispeedResult : Int
  cfsetospeedResult : Int
  tcsetattrResult : Int
  tcflushResult : Int
deriving DecidableEq, Repr

/-- An external call made by the serial back end, with the arguments that vary; the flag
arguments (`O_RDWR | O_NOCTTY | O_NDELAY`, `F_SETFL, O_NONBLOCK`, `TCSANOW`, `TCIOFLUSH`) are
fixed in the source.  The diagnostic `fprintf` calls are not recorded. -/
inductive Call where
  | callOpen (deviceName : String)
  | callFcntl (fd : Int)
  | callTcgetattr (fd : Int)
  | callCfsetispeed (speed : Nat)
  | callCfsetospeed (speed : Nat)
  | callTcsetattr (fd : Int) (options : Termios)
  | callTcflush (fd : Int)
deriving DecidableEq, Repr

/-! ## `interfaceSerialUnix.c`: operations -/

/-- Returns the right unix baud rate const according to a baud rate value.  A `case` whose
constant the platform does not define is compiled out and falls to `default`. -/
def sbgInterfaceSerialGetBaudRateConst (plat : Platform) (baudRate : Nat) : Nat :=
  if baudRate = 9600 then plat.B9600
  else if baudRate = 19200 then plat.B19200
  else if baudRate = 38400 then plat.B38400.getD baudRate
  else if baudRate = 57600 then plat.B57600.getD baudRate
  else if baudRate = 115200 then plat.B115200.getD baudRate
  else if baudRate = 230400 then plat.B230400.getD baudRate
  else if baudRate = 460800 then plat.B460800.getD baudRate
  else if baudRate = 921600 then plat.B921600.getD baudRate
  else baudRate

/-- Flush the RX and TX buffers: the return code and the external calls made. -/
def sbgInterfaceSerialFlush (tcflushResult : Int) (pHandle : Option SbgInterface) :
    SbgErrorCode × List Call :=
  match pHandle with
  | some s =>
    let hSerialHandle := int32OfVoidPtr s.handle
    if tcflushResult = 0 then
      (.SBG_NO_ERROR, [.callTcflush hSerialHandle])
    else
      (.SBG_ERROR, [.callTcflush hSerialHandle])
  | none => (.SBG_NULL_POINTER, [])

/-- The serial line options that `sbgInterfaceSerialCreate` defines on the options read by
`tcgetattr`, statement by statement. -/
def defineComPortOptions (plat : Platform) (options : Termios) : Termios :=
  let o1 := { options with c_cflag := options.c_cflag ||| (plat.CLOCAL ||| plat.CREAD) }
  let o2 := { o1 with c_cflag := o1.c_cflag &&& not32 (plat.PARENB ||| plat.CSTOPB ||| plat.CSIZE) }
  let o3 := { o2 with c_cflag := o2.c_cflag ||| plat.CS8 }
  let o4 := { o3 with c_cflag := o3.c_cflag &&& not32 plat.CRTSCTS }
  let o5 := { o4 with c_iflag := o4.c_iflag &&& not32 (plat.IGNBRK ||| plat.BRKINT |||
    plat.PARMRK ||| plat.ISTRIP ||| plat.INLCR ||| plat.IGNCR ||| plat.ICRNL ||| plat.IXON) }
  let o6 := { o5 with c_lflag := o5.c_lflag &&& not32 (plat.ICANON ||| plat.ECHO |||
    plat.ECHOE ||| plat.ISIG) }
  let o7 := { o6 with c_oflag := o6.c_oflag &&& not32 plat.OPOST }
  let o8 := { o7 with c_cc := o7.c_cc.set plat.VMIN 0 }
  { o8 with c_cc := o8.c_cc.set plat.VTIME 1 }

/-- What a call of `sbgInterfaceSerialCreate` leaves behind: the return code, the interface
structure that `pHandle` points to (none when `pHandle` is NULL), and the external calls
made, in order. -/
structure CreateResult where
  code : SbgErrorCode
  state : Option SbgInterface
  calls : List Call
deriving DecidableEq, Repr

/-- Initialize a serial interface for read and write operations. -/
def sbgInterfaceSerialCreate (plat : Platform) (sys : SerialSyscalls)
    (pHandle : Option SbgInterface) (deviceName : Option String) (baudRate : Nat) :
    CreateResult :=
  match pHandle with
  | some s =>
    match deviceName with
    | some name =>
      let baudRateConst := sbgInterfaceSerialGetBaudRateConst plat baudRate
      let hSerialHandle := sys.openResult
      let c1 := [Call.callOpen name]
      if hSerialHandle ≠ -1 then
        let c2 := c1 ++ [.callFcntl hSerialHandle]
        if sys.fcntlResult ≠ -1 then
          let c3 := c2 ++ [.callTcgetattr hSerialHandle]
          if sys.tcgetattrResult ≠ -1 then
            let options := defineComPortOptions plat sys.tcgetattrOptions
            let c4 := c3 ++ [.callCfsetispeed baudRateConst]
            if sys.cfsetispeedResult ≠ -1 then
              let options := plat.cfsetispeed options baudRateConst
              let c5 := c4 ++ [.callCfsetospeed baudRateConst]
              if sys.cfsetospeedResult ≠ -1 then
                let options := plat.cfsetospeed options baudRateConst
                let c6 := c5 ++ [.callTcsetattr hSerialHandle options]
                if sys.tcsetattrResult ≠ -1 then
                  let s1 := { s with handle := voidPtrOfInt32 plat hSerialHandle }
                  let s2 := { s1 with type := .SBG_IF_TYPE_SERIAL }
                  let s3 := { s2 with pReadFunc := some .sbgInterfaceSerialRead }
                  let s4 := { s3 with pWriteFunc := some .sbgInterfaceSerialWrite }
                  let flushed := sbgInterfaceSerialFlush sys.tcflushResult (some s4)
                  ⟨flushed.1, some s4, c6 ++ flushed.2⟩
                else ⟨.SBG_ERROR, some s, c6⟩
              else ⟨.SBG_ERROR, some s, c5⟩
            else ⟨.SBG_ERROR, some s, c4⟩
          else ⟨.SBG_ERROR, some s, c3⟩
        else ⟨.SBG_ERROR, some s, c2⟩
      else ⟨.SBG_ERROR, some s, c1⟩
    | none => ⟨.SBG_INVALID_PARAMETER, some s, []⟩
  | none => ⟨.SBG_NULL_POINTER, none, []⟩

/-- One call of `write` made by `sbgInterfaceSerialWrite`: the descriptor, the offset of
`pCurrentBuffer` from `pBuffer`, the count asked for, and the value returned. -/
structure WriteCall where
  fd : Int
  offset : Nat
  count : Nat
  result : Int
deriving DecidableEq, Repr

/-- The loop `while (numBytesLeftToWrite > 0)` of `sbgInterfaceSerialWrite`.  `write k offset
count` is the value returned by the call number `k` of the underlying `write`.  The loop has
no bound of its own, so the model runs it for at most `fuel` iterations and gives `none` when
the loop is still running after them; otherwise it gives the return code and the calls made,
in order. -/
def serialWriteLoop (write : Nat → Nat → Nat → Int) (hSerialHandle : Int) :
    (fuel callIndex numBytesLeftToWrite offset : Nat) → Option (SbgErrorCode × List WriteCall)
  | 0, _, numBytesLeftToWrite, _ =>
    if numBytesLeftToWrite > 0 then none else some (.SBG_NO_ERROR, [])
  | fuel + 1, callIndex, numBytesLeftToWrite, offset =>
    if numBytesLeftToWrite > 0 then
      let r := write callIndex offset numBytesLeftToWrite
      let numBytesWritten := uint32OfInt r
      let call : WriteCall := ⟨hSerialHandle, offset, numBytesLeftToWrite, r⟩
      if numBytesWritten = uint32OfInt (-1) then
        some (.SBG_WRITE_ERROR, [call])
      else
        match serialWriteLoop write hSerialHandle fuel (callIndex + 1)
            ((numBytesLeftToWrite + 2 ^ 32 - numBytesWritten) % 2 ^ 32)
            (offset + numBytesWritten) with
        | some (code, calls) => some (code, call :: calls)
        | none => none
    else some (.SBG_NO_ERROR, [])

/-- Try to write some data to an interface.  The buffer is the list of the `bytesToWrite`
bytes that `pBuffer` points to. -/
def sbgInterfaceSerialWrite (write : Nat → Nat → Nat → Int) (fuel : Nat)
    (pHandle : Option SbgInterface) (pBuffer : Option (List Nat)) (bytesToWrite : Nat) :
    Option (SbgErrorCode × List WriteCall) :=
  match pHandle, pBuffer with
  | some s, some _ =>
    serialWriteLoop write (int32OfVoidPtr s.handle) fuel 0 bytesToWrite 0
  | _, _ => some (.SBG_NULL_POINTER, [])

/-- The bytes of the buffer that one `write` call accepted: `result` bytes from its
offset. -/
def acceptedChunk (buffer : List Nat) (c : WriteCall) : List Nat :=
  (buffer.drop c.offset).take c.result.toNat

/-- The number of bytes accepted by a sequence of `write` calls. -/
def totalAccepted (calls : List WriteCall) : Nat :=
  (calls.map (fun c => c.result.toNat)).sum

/-- The `cfsetispeed` of Linux with glibc, on success: the speed is recorded, and a non-zero
speed replaces the baud bits `CBAUD | CBAUDEX = 0o10017` of `c_cflag` and clears `IBAUD0`
in `c_iflag`. -/
def linuxCfsetispeed (options : Termios) (speed : Nat) : Termios :=
  if speed = 0 then
    { options with ispeed := speed, c_iflag := options.c_iflag ||| 0o20000000000 }
  else
    { options with
      ispeed := speed
      c_iflag := options.c_iflag &&& not32 0o20000000000
      c_cflag := (options.c_cflag &&& not32 0o10017) ||| speed }

/-- The `cfsetospeed` of Linux with glibc, on success: the speed is recorded and replaces
the baud bits `CBAUD | CBAUDEX = 0o10017` of `c_cflag`. -/
def linuxCfsetospeed (options : Termios) (speed : Nat) : Termios :=
  { options with
    ospeed := speed
    c_cflag := (options.c_cflag &&& not32 0o10017) ||| speed }

/-- A Linux platform (x86, 64-bit pointers), with the values of its `termios.h`. -/
def linuxPlatform : Platform where
  pointerBits := 64
  cfsetispeed := linuxCfsetispeed
  cfsetospeed := linuxCfsetospeed
  B9600 := 0o15
  B19200 := 0o16
  B38400 := some 0o17
  B57600 := some 0o10001
  B115200 := some 0o10002
  B230400 := some 0o10003
  B460800 := some 0o10004
  B921600 := some 0o10007
  CLOCAL := 0o4000
  CREAD := 0o200
  PARENB := 0o400
  CSTOPB := 0o100
  CSIZE := 0o60
  CS8 := 0o60
  CRTSCTS := 0o20000000000
  IGNBRK := 0o1
  BRKINT := 0o2
  PARMRK := 0o10
  ISTRIP := 0o40
  INLCR := 0o100
  IGNCR := 0o200
  ICRNL := 0o400
  IXON := 0o2000
  ICANON := 0o2
  ECHO := 0o10
  ECHOE := 0o20
  ISIG := 0o1
  OPOST := 0o1
  VMIN := 6
  VTIME := 5

/-- The assumption on the `termios.h` constants under which the control flags can be read
back one by one: the flags are 32-bit values, CS8 is a value of the CSIZE field and shares no
bit with PARENB, CSTOPB or CRTSCTS, and CLOCAL and CREAD share no bit with PARENB, CSTOPB,
CSIZE or CRTSCTS. -/
def cflagBitsIndependent (plat : Platform) : Prop :=
  plat.CS8 < 2 ^ 32 ∧ plat.CLOCAL < 2 ^ 32 ∧ plat.CREAD < 2 ^ 32 ∧
  plat.CS8 &&& plat.CSIZE = plat.CS8 ∧
  plat.CS8 &&& plat.PARENB = 0 ∧ plat.CS8 &&& plat.CSTOPB = 0 ∧
  plat.CS8 &&& plat.CRTSCTS = 0 ∧
  plat.CLOCAL &&& (plat.PARENB ||| plat.CSTOPB ||| plat.CSIZE) = 0 ∧
  plat.CLOCAL &&& plat.CRTSCTS = 0 ∧
  plat.CREAD &&& (plat.PARENB ||| plat.CSTOPB ||| plat.CSIZE) = 0 ∧
  plat.CREAD &&& plat.CRTSCTS = 0

instance (plat : Platform) : Decidable (cflagBitsIndependent plat) := by
  unfold cflagBitsIndependent
  exact inferInstance

/-- The control flags that `cfsetispeed` followed by `cfsetospeed` at `speed` leave in the
options `options`. -/
def cflagAfterSpeedCalls (plat : Platform) (options : Termios) (speed : Nat) : Nat :=
  (plat.cfsetospeed (plat.cfsetispeed options speed) speed).c_cflag

/-- The assumption on the two speed calls of the platform, for the options and the speed
they are given: they leave the CSIZE, PARENB, CSTOPB, CRTSCTS, CLOCAL and CREAD bits of
`c_cflag` as they were (the speed occupies other bits, or none). -/
def speedCallsKeepControlFlags (plat : Platform) (options : Termios) (speed : Nat) : Prop :=
  cflagAfterSpeedCalls plat options speed &&& plat.CSIZE = options.c_cflag &&& plat.CSIZE ∧
  cflagAfterSpeedCalls plat options speed &&& plat.PARENB = options.c_cflag &&& plat.PARENB ∧
  cflagAfterSpeedCalls plat options speed &&& plat.CSTOPB = options.c_cflag &&& plat.CSTOPB ∧
  cflagAfterSpeedCalls plat options speed &&& plat.CRTSCTS =
    options.c_cflag &&& plat.CRTSCTS ∧
  cflagAfterSpeedCalls plat options speed &&& plat.CLOCAL = options.c_cflag &&& plat.CLOCAL ∧
  cflagAfterSpeedCalls plat options speed &&& plat.CREAD = options.c_cflag &&& plat.CREAD

instance (plat : Platform) (options : Termios) (speed : Nat) :
    Decidable (speedCallsKeepControlFlags plat options speed) := by
  unfold speedCallsKeepControlFlags
  exact inferInstance

/-- Outcomes in which every external call of `sbgInterfaceSerialCreate` succeeds: `open`
gives descriptor 3 and `tcgetattr` reads a line set to 7 data bits, even parity, two stop
bits and hardware flow control. -/
def allCallsSucceed : SerialSyscalls where
  openResult := 3
  fcntlResult := 0
  tcgetattrResult := 0
  tcgetattrOptions :=
    { c_iflag := 0o2400, c_oflag := 0o5, c_cflag := 0o20000000540, c_lflag := 0o33,
      c_cc := [3, 28, 127, 21, 4, 0, 1, 0], ispeed := 0o15, ospeed := 0o15 }
  cfsetispeedResult := 0
  cfsetospeedResult := 0
  tcsetattrResult := 0
  tcflushResult := 0

/-- Outcomes in which every external call succeeds except the final `tcflush`, which
fails with -1. -/
def onlyFlushFails : SerialSyscalls := { allCallsSucceed with tcflushResult := -1 }

/-- An interface structure as it may be before initialisation, every field set. -/
def staleInterface : SbgInterface where
  handle := 0xDEAD
  type := .SBG_IF_TYPE_FILE
  pWriteFunc := some (.other 0x1000)
  pReadFunc := some (.other 0x2000)
  pIsValidFunc := some (.other 0x3000)

/-- An underlying `write` that accepts at most two bytes per call and never fails. -/
def acceptsTwoBytes : Nat → Nat → Nat → Int :=
  fun _ _ count => if count > 2 then 2 else count

/-- An underlying `write` that accepts two bytes on its first call and fails with -1 on the
second. -/
def failsOnSecondCall : Nat → Nat → Nat → Int :=
  fun callIndex _ count => if callIndex = 1 then -1 else if count > 2 then 2 else count

/-! ## `interfaceSerialUnix.c`: baud rate change and read -/

/-- Change the serial interface baud rate immediately: the return code and the external
calls made.  The body in the source is that of `sbgInterfaceSerialFlush`; it never reads
`baudRate`.  The statements that follow the function in the file (`tcgetattr`,
`cfsetispeed`, `cfsetospeed`, `tcsetattr`) stand outside any function and are never
executed. -/
def sbgInterfaceSerialChangeBaudrate (tcflushResult : Int) (pHandle : Option SbgInterface)
    (_baudRate : Nat) : SbgErrorCode × List Call :=
  match pHandle with
  | some s =>
    let hSerialHandle := int32OfVoidPtr s.handle
    if tcflushResult = 0 then
      (.SBG_NO_ERROR, [.callTcflush hSerialHandle])
    else
      (.SBG_ERROR, [.callTcflush hSerialHandle])
  | none => (.SBG_NULL_POINTER, [])

/-- The conversion of an `ssize_t` result to `int32`: the low 32 bits, read as a signed
value. -/
def int32OfInt (x : Int) : Int :=
  if x % 2 ^ 32 < 2 ^ 31 then x % 2 ^ 32 else x % 2 ^ 32 - 2 ^ 32

/-- One call of `read` made by `sbgInterfaceSerialRead`: the descriptor and the count asked
for. -/
structure ReadCall where
  fd : Int
  count : Nat
deriving DecidableEq, Repr

/-- What a call of `sbgInterfaceSerialRead` leaves behind: the return code, the `uint32`
that `pReadBytes` points to (none when `pReadBytes` is NULL), and the `read` calls made.  The
bytes that `read` stores in the buffer are not tracked. -/
structure ReadResult where
  code : SbgErrorCode
  readBytes : Option Nat
  calls : List ReadCall
deriving DecidableEq, Repr

/-- Try to read some data from an interface.  `readResult` is the value returned by the
underlying `read`; `pReadBytes` holds the value that the `uint32` it points to has before
the call. -/
def sbgInterfaceSerialRead (readResult : Int) (pHandle : Option SbgInterface)
    (pBuffer : Option (List Nat)) (pReadBytes : Option Nat) (bytesToRead : Nat) :
    ReadResult :=
  match pHandle, pBuffer, pReadBytes with
  | some s, some _, some _ =>
    let hSerialHandle := int32OfVoidPtr s.handle
    let numBytesRead := int32OfInt readResult
    let checked : SbgErrorCode × Int :=
      if numBytesRead > 0 then (.SBG_NO_ERROR, numBytesRead) else (.SBG_READ_ERROR, 0)
    ⟨checked.1, some (uint32OfInt checked.2), [⟨hSerialHandle, bytesToRead⟩]⟩
  | _, _, _ => ⟨.SBG_NULL_POINTER, pReadBytes, []⟩

/-- An underlying `write` that keeps accepting 0 bytes and never reports -1. -/
def acceptsNothing : Nat → Nat → Nat → Int :=
  fun _ _ _ => 0

/-- An underlying `write` that accepts 0 bytes on its first two calls and fails with -1 on
the third. -/
def failsAfterTwoStalls : Nat → Nat → Nat → Int :=
  fun callIndex _ _ => if callIndex = 2 then -1 else 0

/-! ## Bit-level helper lemmas -/

theorem and_mask6 (x : Nat) : x &&& 0x3F = x % 64 :=
  Nat.and_pow_two_sub_one_eq_mod x 6

theorem toUint32_and_mask6 (x : Nat) : toUint32 x &&& 0x3F = x % 64 := by
  rw [and_mask6]
  unfold toUint32
  omega

theorem shl32_zero_of_lt (x : Nat) (h : x < 64) : shl32 x 0 = x := by
  unfold shl32
  rw [Nat.shiftLeft_eq]
  omega

theorem shl32_six_of_lt (x : Nat) (h : x < 64) : shl32 x 6 = 64 * x := by
  unfold shl32
  rw [Nat.shiftLeft_eq]
  omega

/-- A value below `2 ^ k` or-ed with a multiple of `2 ^ k` is their sum. -/
theorem or_eq_add_of_low_clear (k a m : Nat) (ha : a < 2 ^ k) (hm : m % 2 ^ k = 0) :
    a ||| m = a + m := by
  have h := Nat.mul_add_lt_is_or ha (m / 2 ^ k)
  have hm2 : 2 ^ k * (m / 2 ^ k) = m := by
    have := Nat.div_add_mod m (2 ^ k)
    omega
  rw [hm2] at h
  rw [Nat.lor_comm, ← h, Nat.add_comm]

/-- Masking with a shifted constant is shifting the masked high part back. -/
theorem and_shiftLeft_eq (w c k : Nat) : w &&& (c <<< k) = ((w >>> k) &&& c) <<< k := by
  apply Nat.eq_of_testBit_eq
  intro j
  simp only [Nat.testBit_and, Nat.testBit_shiftLeft, Nat.testBit_shiftRight]
  by_cases h : k ≤ j
  · have hj : k + (j - k) = j := by omega
    simp [h, hj]
  · simp [h]

/-- The low field of a value below `2 ^ k` does not reach a flag at bit `k` or above. -/
theorem or_and_two_pow_of_lt (a m k i : Nat) (ha : a < 2 ^ k) (hi : k ≤ i) :
    (a ||| m) &&& 2 ^ i = m &&& 2 ^ i := by
  apply Nat.eq_of_testBit_eq
  intro j
  have hlow : a.testBit i = false :=
    Nat.testBit_lt_two_pow (Nat.lt_of_lt_of_le ha (Nat.pow_le_pow_right (by decide) hi))
  simp only [Nat.testBit_and, Nat.testBit_or, Nat.testBit_two_pow]
  by_cases h : i = j
  · subst h
    simp [hlow]
  · simp [h]

/-! ## The helpers in arithmetic form -/

theorem velGetStatus_eq (w : Nat) : sbgEComLogGpsVelGetStatus w = w % 64 := by
  unfold sbgEComLogGpsVelGetStatus SBG_ECOM_GPS_VEL_STATUS_SHIFT SBG_ECOM_GPS_VEL_STATUS_MASK
  rw [and_mask6, Nat.shiftRight_eq_div_pow]
  simp

theorem velGetType_eq (w : Nat) : sbgEComLogGpsVelGetType w = w / 64 % 64 := by
  unfold sbgEComLogGpsVelGetType SBG_ECOM_GPS_VEL_TYPE_SHIFT SBG_ECOM_GPS_VEL_TYPE_MASK
  rw [and_mask6, Nat.shiftRight_eq_div_pow]

theorem posGetStatus_eq (w : Nat) : sbgEComLogGpsPosGetStatus w = w % 64 := by
  unfold sbgEComLogGpsPosGetStatus SBG_ECOM_GPS_POS_STATUS_SHIFT SBG_ECOM_GPS_POS_STATUS_MASK
  rw [and_mask6, Nat.shiftRight_eq_div_pow]
  simp

theorem posGetType_eq (w : Nat) : sbgEComLogGpsPosGetType w = w / 64 % 64 := by
  unfold sbgEComLogGpsPosGetType SBG_ECOM_GPS_POS_TYPE_SHIFT SBG_ECOM_GPS_POS_TYPE_MASK
  rw [and_mask6, Nat.shiftRight_eq_div_pow]

theorem hdtGetStatus_eq (w : Nat) : sbgEComLogGpsHdtGetStatus w = w % 64 := by
  unfold sbgEComLogGpsHdtGetStatus SBG_ECOM_GPS_HDT_STATUS_SHIFT SBG_ECOM_GPS_HDT_STATUS_MASK
  rw [and_mask6, Nat.shiftRight_eq_div_pow]
  simp

/-- The status and type fields packed by the builders: status in bits 0..5, type in bits
6..11. -/
theorem packed_fields_eq (s t : Nat) :
    shl32 (toUint32 s &&& 0x3F) 0 ||| shl32 (toUint32 t &&& 0x3F) 6 =
      s % 64 + 64 * (t % 64) := by
  rw [toUint32_and_mask6, toUint32_and_mask6,
    shl32_zero_of_lt _ (Nat.mod_lt _ (by decide)), shl32_six_of_lt _ (Nat.mod_lt _ (by decide))]
  apply or_eq_add_of_low_clear 6
  · exact Nat.mod_lt _ (by decide)
  · omega

theorem velBuildStatus_eq (s t : Nat) :
    sbgEComLogGpsVelBuildStatus s t = s % 64 + 64 * (t % 64) := by
  unfold sbgEComLogGpsVelBuildStatus SBG_ECOM_GPS_VEL_STATUS_SHIFT SBG_ECOM_GPS_VEL_STATUS_MASK
    SBG_ECOM_GPS_VEL_TYPE_SHIFT SBG_ECOM_GPS_VEL_TYPE_MASK
  exact packed_fields_eq s t

theorem posBuildStatus_eq (s t m : Nat) :
    sbgEComLogGpsPosBuildStatus s t m = (s % 64 + 64 * (t % 64)) ||| m := by
  unfold sbgEComLogGpsPosBuildStatus SBG_ECOM_GPS_POS_STATUS_SHIFT SBG_ECOM_GPS_POS_STATUS_MASK
    SBG_ECOM_GPS_POS_TYPE_SHIFT SBG_ECOM_GPS_POS_TYPE_MASK
  rw [packed_fields_eq s t]

theorem hdtBuildStatus_eq (s m : Nat) :
    sbgEComLogGpsHdtBuildStatus s m = (s % 64) ||| m := by
  unfold sbgEComLogGpsHdtBuildStatus SBG_ECOM_GPS_HDT_STATUS_SHIFT SBG_ECOM_GPS_HDT_STATUS_MASK
  rw [toUint32_and_mask6, shl32_zero_of_lt _ (Nat.mod_lt _ (by decide))]

theorem and_mask12 (x : Nat) : x &&& 0xFFF = x % 4096 :=
  Nat.and_pow_two_sub_one_eq_mod x 12

/-! ## Position status word: what the builder keeps -/

/-- C1, as stated, fails: the position builder keeps only the low 6 bits of the status and of
the type, and or-s the mask over them.  Status 64 is read back as 0, type 64 is read back as
0, and with masks = 1 the status 0 is read back as 1. -/
theorem posStatus_roundtrip_fails :
    (sbgEComLogGpsPosGetStatus (sbgEComLogGpsPosBuildStatus 64 0 0) = 0 ∧ (0 : Nat) ≠ 64) ∧
    (sbgEComLogGpsPosGetType (sbgEComLogGpsPosBuildStatus 0 64 0) = 0 ∧ (0 : Nat) ≠ 64) ∧
    (sbgEComLogGpsPosGetStatus (sbgEComLogGpsPosBuildStatus 0 0 1) = 1 ∧ (1 : Nat) ≠ 0) := by
  decide

/-- C1, amended: for every status and type in 0..63, defined mnemonic or not, and every masks
value whose low 12 bits are clear, the position status word built from them reads back the
same status and the same type. -/
theorem posStatus_roundtrip (status type masks : Nat)
    (hs : status < 64) (ht : type < 64) (hm : masks &&& 0xFFF = 0) :
    sbgEComLogGpsPosGetStatus (sbgEComLogGpsPosBuildStatus status type masks) = status ∧
    sbgEComLogGpsPosGetType (sbgEComLogGpsPosBuildStatus status type masks) = type := by
  rw [and_mask12] at hm
  have hlow : status % 64 + 64 * (type % 64) < 2 ^ 12 := by omega
  rw [posGetStatus_eq, posGetType_eq, posBuildStatus_eq,
    or_eq_add_of_low_clear 12 _ masks hlow hm]
  constructor <;> omega

/-- Instance of the amended C1 at status 3, type 10 (SBG_ECOM_POS_FIXED) and the five capability
flags. -/
theorem posStatus_roundtrip_witness :
    sbgEComLogGpsPosGetStatus (sbgEComLogGpsPosBuildStatus 3 10 0x1F000) = 3 ∧
    sbgEComLogGpsPosGetType (sbgEComLogGpsPosBuildStatus 3 10 0x1F000) = 10 :=
  posStatus_roundtrip 3 10 0x1F000 (by decide) (by decide) (by decide)

/-- C2: every bit at position 12 or higher of the built position status word is the same bit
of masks, and each of the five SBG_ECOM_GPS_POS_*_USED flags is set in the built word if and
only if it is set in masks. -/
theorem posBuildStatus_keeps_masks (status type masks i : Nat) (hi : 12 ≤ i) :
    (sbgEComLogGpsPosBuildStatus status type masks).testBit i = masks.testBit i ∧
    (sbgEComLogGpsPosBuildStatus status type masks &&& SBG_ECOM_GPS_POS_GPS_L1_USED ≠ 0 ↔
      masks &&& SBG_ECOM_GPS_POS_GPS_L1_USED ≠ 0) ∧
    (sbgEComLogGpsPosBuildStatus status type masks &&& SBG_ECOM_GPS_POS_GPS_L2_USED ≠ 0 ↔
      masks &&& SBG_ECOM_GPS_POS_GPS_L2_USED ≠ 0) ∧
    (sbgEComLogGpsPosBuildStatus status type masks &&& SBG_ECOM_GPS_POS_GPS_L5_USED ≠ 0 ↔
      masks &&& SBG_ECOM_GPS_POS_GPS_L5_USED ≠ 0) ∧
    (sbgEComLogGpsPosBuildStatus status type masks &&& SBG_ECOM_GPS_POS_GLO_L1_USED ≠ 0 ↔
      masks &&& SBG_ECOM_GPS_POS_GLO_L1_USED ≠ 0) ∧
    (sbgEComLogGpsPosBuildStatus status type masks &&& SBG_ECOM_GPS_POS_GLO_L2_USED ≠ 0 ↔
      masks &&& SBG_ECOM_GPS_POS_GLO_L2_USED ≠ 0) := by
  have hlow : status % 64 + 64 * (type % 64) < 2 ^ 12 := by omega
  have h1 : SBG_ECOM_GPS_POS_GPS_L1_USED = 2 ^ 12 := by decide
  have h2 : SBG_ECOM_GPS_POS_GPS_L2_USED = 2 ^ 13 := by decide
  have h3 : SBG_ECOM_GPS_POS_GPS_L5_USED = 2 ^ 14 := by decide
  have h4 : SBG_ECOM_GPS_POS_GLO_L1_USED = 2 ^ 15 := by decide
  have h5 : SBG_ECOM_GPS_POS_GLO_L2_USED = 2 ^ 16 := by decide
  rw [posBuildStatus_eq, h1, h2, h3, h4, h5,
    or_and_two_pow_of_lt _ masks 12 12 hlow (by decide),
    or_and_two_pow_of_lt _ masks 12 13 hlow (by decide),
    or_and_two_pow_of_lt _ masks 12 14 hlow (by decide),
    or_and_two_pow_of_lt _ masks 12 15 hlow (by decide),
    or_and_two_pow_of_lt _ masks 12 16 hlow (by decide)]
  refine ⟨?_, Iff.rfl, Iff.rfl, Iff.rfl, Iff.rfl, Iff.rfl⟩
  rw [Nat.testBit_or,
    Nat.testBit_lt_two_pow (Nat.lt_of_lt_of_le hlow (Nat.pow_le_pow_right (by decide) hi))]
  simp

/-- Instance of C2 at status 3, type 10, masks 0x15000 and bit 14. -/
theorem posBuildStatus_keeps_masks_witness :
    (sbgEComLogGpsPosBuildStatus 3 10 0x15000).testBit 14 = (0x15000 : Nat).testBit 14 ∧
    (sbgEComLogGpsPosBuildStatus 3 10 0x15000 &&& SBG_ECOM_GPS_POS_GPS_L1_USED ≠ 0 ↔
      0x15000 &&& SBG_ECOM_GPS_POS_GPS_L1_USED ≠ 0) ∧
    (sbgEComLogGpsPosBuildStatus 3 10 0x15000 &&& SBG_ECOM_GPS_POS_GPS_L2_USED ≠ 0 ↔
      0x15000 &&& SBG_ECOM_GPS_POS_GPS_L2_USED ≠ 0) ∧
    (sbgEComLogGpsPosBuildStatus 3 10 0x15000 &&& SBG_ECOM_GPS_POS_GPS_L5_USED ≠ 0 ↔
      0x15000 &&& SBG_ECOM_GPS_POS_GPS_L5_USED ≠ 0) ∧
    (sbgEComLogGpsPosBuildStatus 3 10 0x15000 &&& SBG_ECOM_GPS_POS_GLO_L1_USED ≠ 0 ↔
      0x15000 &&& SBG_ECOM_GPS_POS_GLO_L1_USED ≠ 0) ∧
    (sbgEComLogGpsPosBuildStatus 3 10 0x15000 &&& SBG_ECOM_GPS_POS_GLO_L2_USED ≠ 0 ↔
      0x15000 &&& SBG_ECOM_GPS_POS_GLO_L2_USED ≠ 0) :=
  posBuildStatus_keeps_masks 3 10 0x15000 14 (by decide)

/-! ## Velocity and heading status words -/

/-- C3: for every velocity status and type value in 0..63, including the values 4..63 that
have no mnemonic, the velocity status word built from them reads back the same status and
the same type. -/
theorem velStatus_roundtrip (status type : Nat) (hs : status < 64) (ht : type < 64) :
    sbgEComLogGpsVelGetStatus (sbgEComLogGpsVelBuildStatus status type) = status ∧
    sbgEComLogGpsVelGetType (sbgEComLogGpsVelBuildStatus status type) = type := by
  rw [velGetStatus_eq, velGetType_eq, velBuildStatus_eq]
  constructor <;> omega

/-- Instance of C3 at status 63 and type 4, two values without a mnemonic. -/
theorem velStatus_roundtrip_witness :
    sbgEComLogGpsVelGetStatus (sbgEComLogGpsVelBuildStatus 63 4) = 63 ∧
    sbgEComLogGpsVelGetType (sbgEComLogGpsVelBuildStatus 63 4) = 4 :=
  velStatus_roundtrip 63 4 (by decide) (by decide)

/-- C4, as stated, fails: the heading builder keeps only the low 6 bits of the status and
or-s the mask over them.  Status 64 is read back as 0, and with masks = 1 the status 0 is
read back as 1. -/
theorem hdtStatus_roundtrip_fails :
    (sbgEComLogGpsHdtGetStatus (sbgEComLogGpsHdtBuildStatus 64 0) = 0 ∧ (0 : Nat) ≠ 64) ∧
    (sbgEComLogGpsHdtGetStatus (sbgEComLogGpsHdtBuildStatus 0 1) = 1 ∧ (1 : Nat) ≠ 0) := by
  decide

/-- C4, amended: for every heading status in 0..63 and every masks value whose low 6 bits are
clear, the heading status word built from them reads back the same status. -/
theorem hdtStatus_roundtrip (status masks : Nat) (hs : status < 64) (hm : masks &&& 0x3F = 0) :
    sbgEComLogGpsHdtGetStatus (sbgEComLogGpsHdtBuildStatus status masks) = status := by
  rw [and_mask6] at hm
  have hlow : status % 64 < 2 ^ 6 := by omega
  rw [hdtGetStatus_eq, hdtBuildStatus_eq, or_eq_add_of_low_clear 6 _ masks hlow hm]
  omega

/-- Instance of the amended C4 at status 3 and masks 0x40. -/
theorem hdtStatus_roundtrip_witness :
    sbgEComLogGpsHdtGetStatus (sbgEComLogGpsHdtBuildStatus 3 0x40) = 3 :=
  hdtStatus_roundtrip 3 0x40 (by decide) (by decide)

/-! ## Rebuilding a status word from its decoded fields -/

/-- The mask `0xFFFFF000` keeps bits 12..31 of a 32-bit word. -/
theorem and_high20 (w : Nat) (hw : w < 2 ^ 32) : w &&& 0xFFFFF000 = 4096 * (w / 4096) := by
  have hc : (0xFFFFF000 : Nat) = (2 ^ 20 - 1) <<< 12 := by decide
  rw [hc, and_shiftLeft_eq, Nat.and_pow_two_sub_one_eq_mod, Nat.shiftRight_eq_div_pow,
    Nat.shiftLeft_eq]
  omega

/-- C5: for every 32-bit word w, building a position status word from the status and type
decoded from w and from the bits 12..31 of w gives w back. -/
theorem posBuildStatus_of_decoded (w : Nat) (hw : w < 2 ^ 32) :
    sbgEComLogGpsPosBuildStatus (sbgEComLogGpsPosGetStatus w) (sbgEComLogGpsPosGetType w)
      (w &&& 0xFFFFF000) = w := by
  rw [posGetStatus_eq, posGetType_eq, posBuildStatus_eq, and_high20 w hw]
  have hlow : w % 64 % 64 + 64 * (w / 64 % 64 % 64) < 2 ^ 12 := by omega
  rw [or_eq_add_of_low_clear 12 _ _ hlow (by omega)]
  omega

/-- Instance of C5 at the all-ones word 0xFFFFFFFF. -/
theorem posBuildStatus_of_decoded_witness :
    sbgEComLogGpsPosBuildStatus (sbgEComLogGpsPosGetStatus 0xFFFFFFFF)
      (sbgEComLogGpsPosGetType 0xFFFFFFFF) (0xFFFFFFFF &&& 0xFFFFF000) = 0xFFFFFFFF :=
  posBuildStatus_of_decoded 0xFFFFFFFF (by decide)

/-- C6, as stated, fails: the velocity builder has no mask argument, so the bits 12..31 of a
velocity status word are lost.  The 32-bit word 0x1000 decodes to status 0 and type 0 and is
rebuilt as 0. -/
theorem velBuildStatus_of_decoded_fails :
    (0x1000 : Nat) < 2 ^ 32 ∧
    sbgEComLogGpsVelBuildStatus (sbgEComLogGpsVelGetStatus 0x1000)
      (sbgEComLogGpsVelGetType 0x1000) = 0 ∧ (0 : Nat) ≠ 0x1000 := by
  decide

/-- C6, amended: for every velocity status word w, building from the status and type decoded
from w gives the low 12 bits of w, `w & 0xFFF`; it gives w back exactly when w is below 4096,
that is when no bit above the status and type fields is set. -/
theorem velBuildStatus_of_decoded (w : Nat) :
    sbgEComLogGpsVelBuildStatus (sbgEComLogGpsVelGetStatus w) (sbgEComLogGpsVelGetType w) =
      w &&& 0xFFF ∧
    (sbgEComLogGpsVelBuildStatus (sbgEComLogGpsVelGetStatus w) (sbgEComLogGpsVelGetType w) = w ↔
      w < 4096) := by
  rw [velGetStatus_eq, velGetType_eq, velBuildStatus_eq, and_mask12]
  constructor
  · omega
  · constructor <;> intro h <;> omega

/-- C7: for every word w the status accessors of the three log families return the low 6
bits of w, and the two type accessors return the next 6 bits. -/
theorem status_word_layout (w : Nat) :
    sbgEComLogGpsVelGetStatus w = w % 64 ∧
    sbgEComLogGpsPosGetStatus w = w % 64 ∧
    sbgEComLogGpsHdtGetStatus w = w % 64 ∧
    sbgEComLogGpsVelGetType w = (w / 64) % 64 ∧
    sbgEComLogGpsPosGetType w = (w / 64) % 64 :=
  ⟨velGetStatus_eq w, posGetStatus_eq w, hdtGetStatus_eq w, velGetType_eq w, posGetType_eq w⟩

/-! ## Frame sizes -/

/-- C8: for every payload length n up to SBG_ECOM_MAX_PAYLOAD_SIZE, the frame size is 9 + n,
at least 9 and at most SBG_ECOM_MAX_BUFFER_SIZE. -/
theorem frameSize_fits_buffer (n : Nat) (hn : n ≤ SBG_ECOM_MAX_PAYLOAD_SIZE) :
    frameSize n = 9 + n ∧ 9 ≤ frameSize n ∧ frameSize n ≤ SBG_ECOM_MAX_BUFFER_SIZE := by
  unfold SBG_ECOM_MAX_PAYLOAD_SIZE at hn
  unfold frameSize SBG_ECOM_MAX_BUFFER_SIZE
  omega

/-- Instance of C8 at the largest payload, 4086 bytes. -/
theorem frameSize_fits_buffer_witness :
    frameSize 4086 = 9 + 4086 ∧ 9 ≤ frameSize 4086 ∧
      frameSize 4086 ≤ SBG_ECOM_MAX_BUFFER_SIZE :=
  frameSize_fits_buffer 4086 (by decide)

/-- C9, as stated, fails: a payload of SBG_ECOM_MAX_PAYLOAD_SIZE = 4086 bytes is allowed and
its frame is 4095 bytes long, more than 512. -/
theorem frameSize_exceeds_512 :
    4086 ≤ SBG_ECOM_MAX_PAYLOAD_SIZE ∧ frameSize 4086 = 4095 ∧ ¬ frameSize 4086 ≤ 512 := by
  decide

/-- C9, amended: the minimum frame size is 9 bytes and the maximum is 4095 bytes: for every
payload size n up to SBG_ECOM_MAX_PAYLOAD_SIZE the frame size is between 9 and 4095, the
empty payload gives 9 and the largest payload gives 4095. -/
theorem frameSize_bounds (n : Nat) (hn : n ≤ SBG_ECOM_MAX_PAYLOAD_SIZE) :
    (9 ≤ frameSize n ∧ frameSize n ≤ 4095) ∧
    frameSize 0 = 9 ∧ frameSize SBG_ECOM_MAX_PAYLOAD_SIZE = 4095 := by
  unfold SBG_ECOM_MAX_PAYLOAD_SIZE at hn
  unfold frameSize SBG_ECOM_MAX_PAYLOAD_SIZE
  omega

/-- Instance of the amended C9 at a payload of 100 bytes. -/
theorem frameSize_bounds_witness :
    (9 ≤ frameSize 100 ∧ frameSize 100 ≤ 4095) ∧
    frameSize 0 = 9 ∧ frameSize SBG_ECOM_MAX_PAYLOAD_SIZE = 4095 :=
  frameSize_bounds 100 (by decide)

/-! ## Frame round trip -/

theorem readUint16_writeUint16 (x : Nat) :
    readUint16 (x % 256) (x / 256 % 256) = x % 65536 := by
  unfold readUint16
  omega

/-- The candidate examined after the sync bytes of an encoded frame is accepted. -/
theorem scanCandidate_encoded (crc : List Nat → Nat) (cmd : Nat) (P tail : List Nat)
    (skipped : Nat) (hcmd : cmd < 65536) (hP : P.length ≤ SBG_ECOM_MAX_PAYLOAD_SIZE) :
    scanCandidate crc
      (writeUint16 cmd ++ writeUint16 P.length ++ P ++
        writeUint16 (crc16 crc (writeUint16 cmd ++ writeUint16 P.length ++ P)) ++
        [SBG_ECOM_ETX] ++ tail) skipped =
      .Frame cmd P (skipped + 9 + P.length) := by
  have hlen : readUint16 (P.length % 256) (P.length / 256 % 256) = P.length := by
    rw [readUint16_writeUint16]
    unfold SBG_ECOM_MAX_PAYLOAD_SIZE at hP
    omega
  have hc : readUint16 (cmd % 256) (cmd / 256 % 256) = cmd := by
    rw [readUint16_writeUint16]
    omega
  have hcrc : ∀ l, readUint16 (crc16 crc l % 256) (crc16 crc l / 256 % 256) = crc16 crc l := by
    intro l
    rw [readUint16_writeUint16]
    unfold crc16
    omega
  simp only [writeUint16, scanCandidate, List.cons_append, List.nil_append, hlen, hc,
    List.append_assoc]
  rw [if_neg (by omega), if_neg (by simp)]
  simp [hcrc]

/-- C10: for every 16-bit command id and every payload P of at most 4086 bytes, encoding
succeeds with a frame of exactly 9 + |P| bytes, scanning that frame returns the frame with
the same command and payload and consumes exactly 9 + |P| bytes, and what is left after the
consumed bytes holds no further frame. -/
theorem scan_encode (crc : List Nat → Nat) (cmd : Nat) (P : List Nat)
    (hcmd : cmd < 65536) (hP : P.length ≤ SBG_ECOM_MAX_PAYLOAD_SIZE) :
    ∃ bytes, encode crc cmd P = .ok bytes ∧ bytes.length = 9 + P.length ∧
      scan crc bytes = .Frame cmd P (9 + P.length) ∧
      scan crc (bytes.drop (9 + P.length)) = .Incomplete := by
  have henc : encode crc cmd P =
      .ok ([SBG_ECOM_SYNC_1, SBG_ECOM_SYNC_2] ++
        (writeUint16 cmd ++ writeUint16 P.length ++ P) ++
        writeUint16 (crc16 crc (writeUint16 cmd ++ writeUint16 P.length ++ P)) ++
        [SBG_ECOM_ETX]) := by
    unfold encode
    rw [if_neg (by omega)]
  have hsize : ([SBG_ECOM_SYNC_1, SBG_ECOM_SYNC_2] ++
        (writeUint16 cmd ++ writeUint16 P.length ++ P) ++
        writeUint16 (crc16 crc (writeUint16 cmd ++ writeUint16 P.length ++ P)) ++
        [SBG_ECOM_ETX]).length = 9 + P.length := by
    simp only [writeUint16, List.length_append, List.length_cons, List.length_nil]
    omega
  refine ⟨_, henc, hsize, ?_, ?_⟩
  · have h := scanCandidate_encoded crc cmd P [] 0 hcmd hP
    rw [List.append_nil] at h
    unfold scan
    simp only [List.cons_append, List.nil_append, scanFrom, and_self, if_true]
    simpa [Nat.add_comm] using h
  · rw [List.drop_of_length_le (Nat.le_of_eq hsize)]
    simp [scan, scanFrom]

/-- Instance of C10 at command 0x0102 and payload 7, 8, with the byte sum as checksum. -/
theorem scan_encode_witness :
    ∃ bytes, encode (fun l => l.sum) 0x0102 [7, 8] = .ok bytes ∧
      bytes.length = 9 + [7, 8].length ∧
      scan (fun l => l.sum) bytes = .Frame 0x0102 [7, 8] (9 + [7, 8].length) ∧
      scan (fun l => l.sum) (bytes.drop (9 + [7, 8].length)) = .Incomplete :=
  scan_encode (fun l => l.sum) 0x0102 [7, 8] (by decide) (by decide)

/-! ## Rejected candidates -/

/-- Reading a range that is buffered gives the bytes of that range. -/
theorem readRange_eq (buffer : List Nat) :
    ∀ (n start : Nat), start + n ≤ buffer.length →
      readRange buffer start n = some ((buffer.drop start).take n) := by
  intro n
  induction n with
  | zero =>
    intro start _
    simp [readRange]
  | succ n ih =>
    intro start h
    have hlt : start < buffer.length := by omega
    rw [readRange, ih (start + 1) (by omega), List.getElem?_eq_getElem hlt,
      List.drop_eq_getElem_cons hlt]
    rfl

/-- With fewer than 4 bytes after the sync pair the candidate is incomplete. -/
theorem scanCandidate_short (crc : List Nat → Nat) (rest : List Nat) (skipped : Nat)
    (h : rest.length < 4) : scanCandidate crc rest skipped = .Incomplete := by
  match rest, h with
  | [], _ => rfl
  | [_], _ => rfl
  | [_, _], _ => rfl
  | [_, _, _], _ => rfl
  | _ :: _ :: _ :: _ :: _, h => simp at h; omega

/-- The candidate examined by index gives the verdict of `scanCandidate` and reads only
buffered bytes. -/
theorem scanCandidateTraced_refines (crc : List Nat → Nat) (buffer : List Nat) (i : Nat)
    (reads : List Nat) (hi : i + 2 ≤ buffer.length) :
    (scanCandidateTraced crc buffer i reads).result =
      some (scanCandidate crc (buffer.drop (i + 2)) i) ∧
    ∀ j ∈ (scanCandidateTraced crc buffer i reads).reads, j ∈ reads ∨ j < buffer.length := by
  unfold scanCandidateTraced
  by_cases hshort : buffer.length < i + 6
  · rw [if_pos hshort]
    refine ⟨?_, fun j hj => Or.inl hj⟩
    rw [scanCandidate_short crc _ i (by simp; omega)]
  · rw [if_neg hshort]
    have h2 : i + 2 < buffer.length := by omega
    have h3 : i + 3 < buffer.length := by omega
    have h4 : i + 4 < buffer.length := by omega
    have h5 : i + 5 < buffer.length := by omega
    have hdrop : buffer.drop (i + 2) =
        buffer[i + 2] :: buffer[i + 3] :: buffer[i + 4] :: buffer[i + 5] ::
          buffer.drop (i + 6) := by
      rw [List.drop_eq_getElem_cons h2, List.drop_eq_getElem_cons h3,
        List.drop_eq_getElem_cons h4, List.drop_eq_getElem_cons h5]
    rw [hdrop]
    simp only [List.getElem?_eq_getElem h2, List.getElem?_eq_getElem h3,
      List.getElem?_eq_getElem h4, List.getElem?_eq_getElem h5, scanCandidate]
    have hheader : ∀ j ∈ reads ++ [i + 2, i + 3, i + 4, i + 5],
        j ∈ reads ∨ j < buffer.length := by
      intro j hj
      simp only [List.mem_append, List.mem_cons, List.mem_singleton, List.not_mem_nil,
        or_false] at hj
      rcases hj with hj | hj | hj | hj | hj
      · exact Or.inl hj
      all_goals (right; omega)
    by_cases hlen : readUint16 buffer[i + 4] buffer[i + 5] > SBG_ECOM_MAX_PAYLOAD_SIZE
    · simp only [hlen, if_true]
      exact ⟨trivial, hheader⟩
    · simp only [hlen, if_false]
      by_cases hpart : buffer.length < i + 9 + readUint16 buffer[i + 4] buffer[i + 5]
      · have hpart2 : (buffer.drop (i + 6)).length <
            readUint16 buffer[i + 4] buffer[i + 5] + 3 := by
          simp only [List.length_drop]
          omega
        simp only [hpart, hpart2, if_true]
        exact ⟨trivial, hheader⟩
      · have hpart2 : ¬ (buffer.drop (i + 6)).length <
            readUint16 buffer[i + 4] buffer[i + 5] + 3 := by
          simp only [List.length_drop]
          omega
        simp only [hpart, hpart2, if_false]
        generalize hL : readUint16 buffer[i + 4] buffer[i + 5] = len at hpart hpart2 hlen ⊢
        have k0 : i + 6 + len < buffer.length := by omega
        have k1 : i + 7 + len < buffer.length := by omega
        have k2 : i + 8 + len < buffer.length := by omega
        have hdrop2 : (buffer.drop (i + 6)).drop len =
            buffer[i + 6 + len] :: buffer[i + 7 + len] :: buffer[i + 8 + len] ::
              buffer.drop (i + 9 + len) := by
          rw [List.drop_drop]
          rw [List.drop_eq_getElem_cons k0]
          have e1 : i + 6 + len + 1 = i + 7 + len := by omega
          simp only [e1]
          rw [List.drop_eq_getElem_cons k1]
          have e2 : i + 7 + len + 1 = i + 8 + len := by omega
          simp only [e2]
          rw [List.drop_eq_getElem_cons k2]
          have e3 : i + 8 + len + 1 = i + 9 + len := by omega
          simp only [e3]
        rw [hdrop2, readRange_eq buffer len (i + 6) (by omega)]
        simp only [List.getElem?_eq_getElem k0, List.getElem?_eq_getElem k1,
          List.getElem?_eq_getElem k2]
        have hall : ∀ j ∈ reads ++ [i + 2, i + 3, i + 4, i + 5] ++
            List.range' (i + 6) (len + 3), j ∈ reads ∨ j < buffer.length := by
          intro j hj
          rw [List.mem_append] at hj
          rcases hj with hj | hj
          · exact hheader j hj
          · rw [List.mem_range'_1] at hj
            right
            omega
        split_ifs <;> exact ⟨rfl, hall⟩

/-- The sync search by index gives the verdict of `scanFrom` and reads only buffered
bytes. -/
theorem scanFromTraced_refines (crc : List Nat → Nat) (buffer : List Nat) :
    ∀ (remaining i : Nat) (reads : List Nat), i + remaining = buffer.length →
      (scanFromTraced crc buffer remaining i reads).result =
        some (scanFrom crc (buffer.drop i) i) ∧
      ∀ j ∈ (scanFromTraced crc buffer remaining i reads).reads,
        j ∈ reads ∨ j < buffer.length := by
  intro remaining
  induction remaining with
  | zero =>
    intro i reads hsum
    have hnil : buffer.drop i = [] := List.drop_of_length_le (by omega)
    rw [hnil]
    exact ⟨rfl, fun j hj => Or.inl hj⟩
  | succ remaining ih =>
    intro i reads hsum
    rw [scanFromTraced]
    have h0 : i < buffer.length := by omega
    by_cases hshort : buffer.length < i + 2
    · rw [if_pos hshort]
      have hone : buffer.drop i = [buffer[i]] := by
        rw [List.drop_eq_getElem_cons h0, List.drop_of_length_le (by omega)]
      rw [hone]
      exact ⟨rfl, fun j hj => Or.inl hj⟩
    · rw [if_neg hshort]
      have h1 : i + 1 < buffer.length := by omega
      have hdrop : buffer.drop i = buffer[i] :: buffer[i + 1] :: buffer.drop (i + 2) := by
        rw [List.drop_eq_getElem_cons h0, List.drop_eq_getElem_cons h1]
      have hdrop1 : buffer.drop (i + 1) = buffer[i + 1] :: buffer.drop (i + 2) :=
        List.drop_eq_getElem_cons h1
      have hpair : ∀ j ∈ reads ++ [i, i + 1], j ∈ reads ∨ j < buffer.length := by
        intro j hj
        simp only [List.mem_append, List.mem_cons, List.mem_singleton, List.not_mem_nil,
          or_false] at hj
        rcases hj with hj | hj | hj
        · exact Or.inl hj
        all_goals (right; omega)
      rw [hdrop, scanFrom]
      simp only [List.getElem?_eq_getElem h0, List.getElem?_eq_getElem h1]
      by_cases hsync : buffer[i] = SBG_ECOM_SYNC_1 ∧ buffer[i + 1] = SBG_ECOM_SYNC_2
      · rw [if_pos hsync, if_pos hsync]
        obtain ⟨hres, hreads⟩ :=
          scanCandidateTraced_refines crc buffer i (reads ++ [i, i + 1]) (by omega)
        refine ⟨hres, fun j hj => ?_⟩
        rcases hreads j hj with h | h
        · exact hpair j h
        · exact Or.inr h
      · rw [if_neg hsync, if_neg hsync]
        obtain ⟨hres, hreads⟩ := ih (i + 1) (reads ++ [i, i + 1]) (by omega)
        rw [hdrop1] at hres
        refine ⟨hres, fun j hj => ?_⟩
        rcases hreads j hj with h | h
        · exact hpair j h
        · exact Or.inr h

/-- The scanner with recorded accesses gives the verdict of `scan` and never reads an
index at or beyond the buffered data. -/
theorem scanTraced_refines (crc : List Nat → Nat) (buffer : List Nat) :
    (scanTraced crc buffer).result = some (scan crc buffer) ∧
    ∀ j ∈ (scanTraced crc buffer).reads, j < buffer.length := by
  obtain ⟨hres, hreads⟩ := scanFromTraced_refines crc buffer buffer.length 0 [] (by omega)
  refine ⟨?_, fun j hj => ?_⟩
  · simpa [scanTraced, scan] using hres
  · rcases hreads j hj with h | h
    · cases h
    · exact h

/-- On a buffer that starts with the sync bytes and a header whose LENGTH exceeds 4086, the
scanner reads the six header bytes and nothing else. -/
theorem scanTraced_length_too_large (crc : List Nat → Nat) (c0 c1 l0 l1 : Nat)
    (data : List Nat) (hlen : readUint16 l0 l1 > SBG_ECOM_MAX_PAYLOAD_SIZE) :
    scanTraced crc (SBG_ECOM_SYNC_1 :: SBG_ECOM_SYNC_2 :: c0 :: c1 :: l0 :: l1 :: data) =
      ⟨some (.Invalid 2), [0, 1, 2, 3, 4, 5]⟩ := by
  simp [scanTraced, scanFromTraced, scanCandidateTraced, hlen]
  rw [if_neg (by omega), if_neg (by omega)]

/-- C11: for every buffer that starts with the sync bytes 0xFF 0x5A followed by a header
whose LENGTH field exceeds 4086, whatever is buffered after the header, the scanner reports
Invalid with bytesToSkip = 2, and the bytes it reads are exactly those at the indices 0 to
5, all of them within the buffered data: no read goes beyond it. -/
theorem scan_length_too_large (crc : List Nat → Nat) (c0 c1 l0 l1 : Nat) (data : List Nat)
    (hlen : readUint16 l0 l1 > SBG_ECOM_MAX_PAYLOAD_SIZE) :
    scan crc (SBG_ECOM_SYNC_1 :: SBG_ECOM_SYNC_2 :: c0 :: c1 :: l0 :: l1 :: data) =
      .Invalid 2 ∧
    (scanTraced crc
      (SBG_ECOM_SYNC_1 :: SBG_ECOM_SYNC_2 :: c0 :: c1 :: l0 :: l1 :: data)).result =
      some (.Invalid 2) ∧
    (scanTraced crc
      (SBG_ECOM_SYNC_1 :: SBG_ECOM_SYNC_2 :: c0 :: c1 :: l0 :: l1 :: data)).reads =
      [0, 1, 2, 3, 4, 5] ∧
    ∀ j ∈ (scanTraced crc
        (SBG_ECOM_SYNC_1 :: SBG_ECOM_SYNC_2 :: c0 :: c1 :: l0 :: l1 :: data)).reads,
      j < (SBG_ECOM_SYNC_1 :: SBG_ECOM_SYNC_2 :: c0 :: c1 :: l0 :: l1 :: data).length := by
  have htraced := scanTraced_length_too_large crc c0 c1 l0 l1 data hlen
  refine ⟨?_, ?_, ?_, ?_⟩
  · simp [scan, scanFrom, scanCandidate, hlen]
  · rw [htraced]
  · rw [htraced]
  · exact (scanTraced_refines crc _).2

/-- Instance of C11 at the header of a frame that claims 5000 = 0x1388 payload bytes, with
only three bytes buffered after it. -/
theorem scan_length_too_large_witness :
    scan (fun l => l.sum)
      (SBG_ECOM_SYNC_1 :: SBG_ECOM_SYNC_2 :: 0x02 :: 0x01 :: 0x88 :: 0x13 :: [7, 8, 9]) =
      .Invalid 2 ∧
    (scanTraced (fun l => l.sum)
      (SBG_ECOM_SYNC_1 :: SBG_ECOM_SYNC_2 :: 0x02 :: 0x01 :: 0x88 :: 0x13 :: [7, 8, 9])).result =
      some (.Invalid 2) ∧
    (scanTraced (fun l => l.sum)
      (SBG_ECOM_SYNC_1 :: SBG_ECOM_SYNC_2 :: 0x02 :: 0x01 :: 0x88 :: 0x13 :: [7, 8, 9])).reads =
      [0, 1, 2, 3, 4, 5] ∧
    ∀ j ∈ (scanTraced (fun l => l.sum)
        (SBG_ECOM_SYNC_1 :: SBG_ECOM_SYNC_2 :: 0x02 :: 0x01 :: 0x88 :: 0x13 :: [7, 8, 9])).reads,
      j < (SBG_ECOM_SYNC_1 :: SBG_ECOM_SYNC_2 :: 0x02 :: 0x01 :: 0x88 :: 0x13 ::
        [7, 8, 9]).length :=
  scan_length_too_large (fun l => l.sum) 0x02 0x01 0x88 0x13 [7, 8, 9] (by decide)

/-! ## Transport interface -/

/-- C12: for every interface structure, sbgInterfaceZeroInit succeeds and leaves the handle
NULL, the type SBG_IF_TYPE_UNKNOW, and pWriteFunc, pReadFunc and pIsValidFunc NULL. -/
theorem zeroInit_clears_all (s : SbgInterface) :
    ∃ z, sbgInterfaceZeroInit (some s) = .ok z ∧
      z.handle = NULL ∧ z.type = .SBG_IF_TYPE_UNKNOW ∧
      z.pWriteFunc = none ∧ z.pReadFunc = none ∧ z.pIsValidFunc = none :=
  ⟨_, rfl, rfl, rfl, rfl, rfl, rfl⟩

/-- C13, at the failing input: with pHandle NULL, sbgInterfaceIsValid does not return FALSE;
it dereferences the NULL pointer.  With a non-NULL pHandle whose pIsValidFunc is set it
returns the result of that method applied to the interface. -/
theorem isValid_null_handle_faults
    (callIsValid : SbgInterfaceIsValidFunc → SbgInterface → Bool) :
    sbgInterfaceIsValid callIsValid none = .error .nullPointerDereference ∧
    sbgInterfaceIsValid callIsValid none ≠ .ok false ∧
    ∀ (s : SbgInterface) (f : SbgInterfaceIsValidFunc),
      sbgInterfaceIsValid callIsValid (some { s with pIsValidFunc := some f }) =
        .ok (callIsValid f { s with pIsValidFunc := some f }) := by
  refine ⟨rfl, ?_, ?_⟩
  · intro h
    cases h
  · intro s f
    rfl

/-! ## Creating a serial interface -/

/-- The return code is SBG_NO_ERROR only when every external call has succeeded. -/
theorem serialCreate_no_error_calls (plat : Platform) (sys : SerialSyscalls)
    (s : SbgInterface) (name : String) (baudRate : Nat)
    (hok : (sbgInterfaceSerialCreate plat sys (some s) (some name) baudRate).code =
      .SBG_NO_ERROR) :
    sys.openResult ≠ -1 ∧ sys.fcntlResult ≠ -1 ∧ sys.tcgetattrResult ≠ -1 ∧
    sys.cfsetispeedResult ≠ -1 ∧ sys.cfsetospeedResult ≠ -1 ∧ sys.tcsetattrResult ≠ -1 ∧
    sys.tcflushResult = 0 := by
  unfold sbgInterfaceSerialCreate at hok
  by_cases h1 : sys.openResult = -1
  · simp [h1] at hok
  by_cases h2 : sys.fcntlResult = -1
  · simp [h1, h2] at hok
  by_cases h3 : sys.tcgetattrResult = -1
  · simp [h1, h2, h3] at hok
  by_cases h4 : sys.cfsetispeedResult = -1
  · simp [h1, h2, h3, h4] at hok
  by_cases h5 : sys.cfsetospeedResult = -1
  · simp [h1, h2, h3, h4, h5] at hok
  by_cases h6 : sys.tcsetattrResult = -1
  · simp [h1, h2, h3, h4, h5, h6] at hok
  by_cases h7 : sys.tcflushResult = 0
  · exact ⟨h1, h2, h3, h4, h5, h6, h7⟩
  · simp [h1, h2, h3, h4, h5, h6, h7, sbgInterfaceSerialFlush] at hok

/-- Once the port has been configured, the handle, the type and the read and write
callbacks are stored, whatever tcflush returns; pIsValidFunc is not touched. -/
theorem serialCreate_state_of_configured (plat : Platform) (sys : SerialSyscalls)
    (s : SbgInterface) (name : String) (baudRate : Nat)
    (hopen : sys.openResult ≠ -1) (hfcntl : sys.fcntlResult ≠ -1)
    (hget : sys.tcgetattrResult ≠ -1) (hispeed : sys.cfsetispeedResult ≠ -1)
    (hospeed : sys.cfsetospeedResult ≠ -1) (hset : sys.tcsetattrResult ≠ -1) :
    (sbgInterfaceSerialCreate plat sys (some s) (some name) baudRate).state =
      some ⟨voidPtrOfInt32 plat sys.openResult, .SBG_IF_TYPE_SERIAL,
        some .sbgInterfaceSerialWrite, some .sbgInterfaceSerialRead, s.pIsValidFunc⟩ := by
  unfold sbgInterfaceSerialCreate
  simp [hopen, hfcntl, hget, hispeed, hospeed, hset]

/-- C14, at the failing input: on a zero-initialised interface, whenever
sbgInterfaceSerialCreate returns SBG_NO_ERROR the type is SBG_IF_TYPE_SERIAL and pReadFunc
and pWriteFunc are set, but pIsValidFunc is still NULL, and sbgInterfaceIsValid on the
created interface calls through that NULL pointer. -/
theorem serialCreate_leaves_isValid_null
    (callIsValid : SbgInterfaceIsValidFunc → SbgInterface → Bool)
    (plat : Platform) (sys : SerialSyscalls) (s z : SbgInterface) (name : String)
    (baudRate : Nat) (hz : sbgInterfaceZeroInit (some s) = .ok z)
    (hok : (sbgInterfaceSerialCreate plat sys (some z) (some name) baudRate).code =
      .SBG_NO_ERROR) :
    ∃ t, (sbgInterfaceSerialCreate plat sys (some z) (some name) baudRate).state = some t ∧
      t.type = .SBG_IF_TYPE_SERIAL ∧
      t.pReadFunc = some .sbgInterfaceSerialRead ∧
      t.pWriteFunc = some .sbgInterfaceSerialWrite ∧
      t.pIsValidFunc = none ∧
      sbgInterfaceIsValid callIsValid (some t) = .error .nullFunctionCall := by
  have hcalls := serialCreate_no_error_calls plat sys z name baudRate hok
  obtain ⟨h1, h2, h3, h4, h5, h6, _⟩ := hcalls
  have hz2 : z = ⟨NULL, .SBG_IF_TYPE_UNKNOW, none, none, none⟩ := by
    simp only [sbgInterfaceZeroInit, Except.ok.injEq] at hz
    exact hz.symm
  subst hz2
  refine ⟨_, serialCreate_state_of_configured plat sys _ name baudRate h1 h2 h3 h4 h5 h6,
    rfl, rfl, rfl, rfl, rfl⟩

/-- Instance of C14 on Linux with every external call succeeding, starting from a
zero-initialised interface. -/
theorem serialCreate_leaves_isValid_null_witness :
    ∃ t, (sbgInterfaceSerialCreate linuxPlatform allCallsSucceed
        (some ⟨NULL, .SBG_IF_TYPE_UNKNOW, none, none, none⟩) (some "/dev/ttyUSB0")
        115200).state = some t ∧
      t.type = .SBG_IF_TYPE_SERIAL ∧
      t.pReadFunc = some .sbgInterfaceSerialRead ∧
      t.pWriteFunc = some .sbgInterfaceSerialWrite ∧
      t.pIsValidFunc = none ∧
      sbgInterfaceIsValid (fun _ _ => true) (some t) = .error .nullFunctionCall :=
  serialCreate_leaves_isValid_null (fun _ _ => true) linuxPlatform allCallsSucceed
    staleInterface ⟨NULL, .SBG_IF_TYPE_UNKNOW, none, none, none⟩ "/dev/ttyUSB0" 115200 rfl
    (by decide)

/-- C15, at the failing input: when every external call succeeds except the final tcflush,
sbgInterfaceSerialCreate returns SBG_ERROR although it has stored the handle, the type and
the read and write callbacks in the interface structure. -/
theorem serialCreate_flush_failure_keeps_stores (plat : Platform) (sys : SerialSyscalls)
    (s : SbgInterface) (name : String) (baudRate : Nat)
    (hopen : sys.openResult ≠ -1) (hfcntl : sys.fcntlResult ≠ -1)
    (hget : sys.tcgetattrResult ≠ -1) (hispeed : sys.cfsetispeedResult ≠ -1)
    (hospeed : sys.cfsetospeedResult ≠ -1) (hset : sys.tcsetattrResult ≠ -1)
    (hflush : sys.tcflushResult ≠ 0) :
    (sbgInterfaceSerialCreate plat sys (some s) (some name) baudRate).code = .SBG_ERROR ∧
    (sbgInterfaceSerialCreate plat sys (some s) (some name) baudRate).state =
      some ⟨voidPtrOfInt32 plat sys.openResult, .SBG_IF_TYPE_SERIAL,
        some .sbgInterfaceSerialWrite, some .sbgInterfaceSerialRead, s.pIsValidFunc⟩ := by
  refine ⟨?_, serialCreate_state_of_configured plat sys s name baudRate hopen hfcntl hget
    hispeed hospeed hset⟩
  unfold sbgInterfaceSerialCreate
  simp [hopen, hfcntl, hget, hispeed, hospeed, hset, hflush, sbgInterfaceSerialFlush]

/-- Instance of C15 on Linux: the zero-initialised interface is not left as it was, yet the
return code is SBG_ERROR. -/
theorem serialCreate_flush_failure_keeps_stores_witness :
    (some (⟨NULL, .SBG_IF_TYPE_UNKNOW, none, none, none⟩ : SbgInterface) ≠
      some ⟨voidPtrOfInt32 linuxPlatform onlyFlushFails.openResult, .SBG_IF_TYPE_SERIAL,
        some .sbgInterfaceSerialWrite, some .sbgInterfaceSerialRead, none⟩) ∧
    ((sbgInterfaceSerialCreate linuxPlatform onlyFlushFails
        (some ⟨NULL, .SBG_IF_TYPE_UNKNOW, none, none, none⟩) (some "/dev/ttyUSB0")
        115200).code = .SBG_ERROR ∧
      (sbgInterfaceSerialCreate linuxPlatform onlyFlushFails
        (some ⟨NULL, .SBG_IF_TYPE_UNKNOW, none, none, none⟩) (some "/dev/ttyUSB0")
        115200).state =
      some ⟨voidPtrOfInt32 linuxPlatform onlyFlushFails.openResult, .SBG_IF_TYPE_SERIAL,
        some .sbgInterfaceSerialWrite, some .sbgInterfaceSerialRead, none⟩) :=
  ⟨by decide,
    serialCreate_flush_failure_keeps_stores linuxPlatform onlyFlushFails
      ⟨NULL, .SBG_IF_TYPE_UNKNOW, none, none, none⟩ "/dev/ttyUSB0" 115200
      (by decide) (by decide) (by decide) (by decide) (by decide) (by decide) (by decide)⟩

/-- C16: with pHandle NULL sbgInterfaceSerialCreate returns SBG_NULL_POINTER, and with a
non-NULL pHandle and a NULL deviceName it returns SBG_INVALID_PARAMETER; in both cases it
makes no external call and leaves the interface structure as it was. -/
theorem serialCreate_validates_arguments (plat : Platform) (sys : SerialSyscalls)
    (s : SbgInterface) (deviceName : Option String) (baudRate : Nat) :
    sbgInterfaceSerialCreate plat sys none deviceName baudRate =
      ⟨.SBG_NULL_POINTER, none, []⟩ ∧
    sbgInterfaceSerialCreate plat sys (some s) none baudRate =
      ⟨.SBG_INVALID_PARAMETER, some s, []⟩ :=
  ⟨rfl, rfl⟩

/-- C18: sbgInterfaceSerialGetBaudRateConst maps 9600 to B9600 and 19200 to B19200, and
maps each of 38400, 57600, 115200, 230400, 460800 and 921600 to the platform constant of
that rate whenever the platform defines it. -/
theorem getBaudRateConst_supported (plat : Platform) (b : Nat) :
    sbgInterfaceSerialGetBaudRateConst plat 9600 = plat.B9600 ∧
    sbgInterfaceSerialGetBaudRateConst plat 19200 = plat.B19200 ∧
    sbgInterfaceSerialGetBaudRateConst { plat with B38400 := some b } 38400 = b ∧
    sbgInterfaceSerialGetBaudRateConst { plat with B57600 := some b } 57600 = b ∧
    sbgInterfaceSerialGetBaudRateConst { plat with B115200 := some b } 115200 = b ∧
    sbgInterfaceSerialGetBaudRateConst { plat with B230400 := some b } 230400 = b ∧
    sbgInterfaceSerialGetBaudRateConst { plat with B460800 := some b } 460800 = b ∧
    sbgInterfaceSerialGetBaudRateConst { plat with B921600 := some b } 921600 = b := by
  simp [sbgInterfaceSerialGetBaudRateConst]

/-! ## Serial line configuration -/

theorem testBit_not32 (m i : Nat) :
    (not32 m).testBit i = (decide (i < 32) && !m.testBit i) := by
  have h : m % 2 ^ 32 < 2 ^ 32 := Nat.mod_lt _ (by decide)
  have e : not32 m = 2 ^ 32 - (m % 2 ^ 32 + 1) := by
    unfold not32
    omega
  rw [e, Nat.testBit_two_pow_sub_succ h, Nat.testBit_mod_two_pow]
  by_cases hi : i < 32 <;> simp [hi]

theorem testBit_and_of_eq_zero {a b : Nat} (h : a &&& b = 0) (i : Nat) :
    (a &&& b).testBit i = false := by
  rw [h, Nat.zero_testBit]

theorem testBit_and_of_eq_left {a b : Nat} (h : a &&& b = a) (i : Nat) :
    (a &&& b).testBit i = a.testBit i := by
  rw [h]

theorem testBit_and_lt32 {a : Nat} (h : a < 2 ^ 32) (i : Nat) :
    (a.testBit i && decide (i < 32)) = a.testBit i := by
  by_cases hi : i < 32
  · simp [hi]
  · have hbit : a.testBit i = false :=
      Nat.testBit_lt_two_pow
        (Nat.lt_of_lt_of_le h (Nat.pow_le_pow_right (by decide) (by omega)))
    simp [hbit]

/-- The character size field of the configured control flags holds the value or-ed in. -/
theorem cflag_size_field (c L R P S Z E T : Nat)
    (hE : E < 2 ^ 32) (hEZ : E &&& Z = E) (hET : E &&& T = 0) :
    ((((c ||| (L ||| R)) &&& not32 (P ||| S ||| Z)) ||| E) &&& not32 T) &&& Z = E := by
  apply Nat.eq_of_testBit_eq
  intro i
  have h1 := testBit_and_lt32 hE i
  have h2 := testBit_and_of_eq_left hEZ i
  have h3 := testBit_and_of_eq_zero hET i
  simp only [Nat.testBit_and, Nat.testBit_or, testBit_not32, Nat.zero_testBit] at *
  revert h1 h2 h3
  generalize decide (i < 32) = d
  generalize c.testBit i = x
  generalize L.testBit i = l
  generalize R.testBit i = r
  generalize P.testBit i = p
  generalize S.testBit i = s
  generalize Z.testBit i = z
  generalize E.testBit i = e
  generalize T.testBit i = t
  revert d x l r p s z e t
  decide

/-- A flag of the first cleared group stays clear when the value or-ed in afterwards avoids it. -/
theorem cflag_parity_clear (c L R P S Z E T : Nat)
    (hEP : E &&& P = 0) :
    ((((c ||| (L ||| R)) &&& not32 (P ||| S ||| Z)) ||| E) &&& not32 T) &&& P = 0 := by
  apply Nat.eq_of_testBit_eq
  intro i
  have h1 := testBit_and_of_eq_zero hEP i
  simp only [Nat.testBit_and, Nat.testBit_or, testBit_not32, Nat.zero_testBit] at *
  revert h1
  generalize decide (i < 32) = d
  generalize c.testBit i = x
  generalize L.testBit i = l
  generalize R.testBit i = r
  generalize P.testBit i = p
  generalize S.testBit i = s
  generalize Z.testBit i = z
  generalize E.testBit i = e
  generalize T.testBit i = t
  revert d x l r p s z e t
  decide

/-- The second flag of the cleared group stays clear when the value or-ed in afterwards avoids it. -/
theorem cflag_stop_clear (c L R P S Z E T : Nat)
    (hES : E &&& S = 0) :
    ((((c ||| (L ||| R)) &&& not32 (P ||| S ||| Z)) ||| E) &&& not32 T) &&& S = 0 := by
  apply Nat.eq_of_testBit_eq
  intro i
  have h1 := testBit_and_of_eq_zero hES i
  simp only [Nat.testBit_and, Nat.testBit_or, testBit_not32, Nat.zero_testBit] at *
  revert h1
  generalize decide (i < 32) = d
  generalize c.testBit i = x
  generalize L.testBit i = l
  generalize R.testBit i = r
  generalize P.testBit i = p
  generalize S.testBit i = s
  generalize Z.testBit i = z
  generalize E.testBit i = e
  generalize T.testBit i = t
  revert d x l r p s z e t
  decide

/-- The flag cleared last is clear. -/
theorem cflag_last_clear (c L R P S Z E T : Nat) :
    ((((c ||| (L ||| R)) &&& not32 (P ||| S ||| Z)) ||| E) &&& not32 T) &&& T = 0 := by
  apply Nat.eq_of_testBit_eq
  intro i
  simp only [Nat.testBit_and, Nat.testBit_or, testBit_not32, Nat.zero_testBit]
  generalize decide (i < 32) = d
  generalize c.testBit i = x
  generalize L.testBit i = l
  generalize R.testBit i = r
  generalize P.testBit i = p
  generalize S.testBit i = s
  generalize Z.testBit i = z
  generalize E.testBit i = e
  generalize T.testBit i = t
  revert d x l r p s z e t
  decide

/-- The first flag or-ed in at the start survives the clearings that avoid it. -/
theorem cflag_first_set (c L R P S Z E T : Nat)
    (hL : L < 2 ^ 32) (hLm : L &&& (P ||| S ||| Z) = 0) (hLT : L &&& T = 0) :
    ((((c ||| (L ||| R)) &&& not32 (P ||| S ||| Z)) ||| E) &&& not32 T) &&& L = L := by
  apply Nat.eq_of_testBit_eq
  intro i
  have h1 := testBit_and_lt32 hL i
  have h2 := testBit_and_of_eq_zero hLm i
  have h3 := testBit_and_of_eq_zero hLT i
  simp only [Nat.testBit_and, Nat.testBit_or, testBit_not32, Nat.zero_testBit] at *
  revert h1 h2 h3
  generalize decide (i < 32) = d
  generalize c.testBit i = x
  generalize L.testBit i = l
  generalize R.testBit i = r
  generalize P.testBit i = p
  generalize S.testBit i = s
  generalize Z.testBit i = z
  generalize E.testBit i = e
  generalize T.testBit i = t
  revert d x l r p s z e t
  decide

/-- The second flag or-ed in at the start survives the clearings that avoid it. -/
theorem cflag_second_set (c L R P S Z E T : Nat)
    (hR : R < 2 ^ 32) (hRm : R &&& (P ||| S ||| Z) = 0) (hRT : R &&& T = 0) :
    ((((c ||| (L ||| R)) &&& not32 (P ||| S ||| Z)) ||| E) &&& not32 T) &&& R = R := by
  apply Nat.eq_of_testBit_eq
  intro i
  have h1 := testBit_and_lt32 hR i
  have h2 := testBit_and_of_eq_zero hRm i
  have h3 := testBit_and_of_eq_zero hRT i
  simp only [Nat.testBit_and, Nat.testBit_or, testBit_not32, Nat.zero_testBit] at *
  revert h1 h2 h3
  generalize decide (i < 32) = d
  generalize c.testBit i = x
  generalize L.testBit i = l
  generalize R.testBit i = r
  generalize P.testBit i = p
  generalize S.testBit i = s
  generalize Z.testBit i = z
  generalize E.testBit i = e
  generalize T.testBit i = t
  revert d x l r p s z e t
  decide

/-- The options that sbgInterfaceSerialCreate hands to tcsetattr: those read by tcgetattr,
with the com port options defined and both speeds set. -/
theorem serialCreate_tcsetattr_options (plat : Platform) (sys : SerialSyscalls)
    (pHandle : Option SbgInterface) (deviceName : Option String) (baudRate : Nat)
    (fd : Int) (options : Termios)
    (hcall : Call.callTcsetattr fd options ∈
      (sbgInterfaceSerialCreate plat sys pHandle deviceName baudRate).calls) :
    fd = sys.openResult ∧
    options = plat.cfsetospeed
      (plat.cfsetispeed (defineComPortOptions plat sys.tcgetattrOptions)
        (sbgInterfaceSerialGetBaudRateConst plat baudRate))
      (sbgInterfaceSerialGetBaudRateConst plat baudRate) := by
  cases pHandle with
  | none => simp [sbgInterfaceSerialCreate] at hcall
  | some s =>
    cases deviceName with
    | none => simp [sbgInterfaceSerialCreate] at hcall
    | some name =>
      unfold sbgInterfaceSerialCreate at hcall
      by_cases h1 : sys.openResult = -1
      · simp [h1] at hcall
      by_cases h2 : sys.fcntlResult = -1
      · simp [h1, h2] at hcall
      by_cases h3 : sys.tcgetattrResult = -1
      · simp [h1, h2, h3] at hcall
      by_cases h4 : sys.cfsetispeedResult = -1
      · simp [h1, h2, h3, h4] at hcall
      by_cases h5 : sys.cfsetospeedResult = -1
      · simp [h1, h2, h3, h4, h5] at hcall
      by_cases h6 : sys.tcsetattrResult = -1
      · simp [h1, h2, h3, h4, h5, h6] at hcall
        exact hcall
      by_cases h7 : sys.tcflushResult = 0
      · simp [h1, h2, h3, h4, h5, h6, h7, sbgInterfaceSerialFlush] at hcall
        exact hcall
      · simp [h1, h2, h3, h4, h5, h6, h7, sbgInterfaceSerialFlush] at hcall
        exact hcall

/-- When open, fcntl, tcgetattr, cfsetispeed and cfsetospeed succeed,
sbgInterfaceSerialCreate does call tcsetattr, on the descriptor that open returned. -/
theorem serialCreate_calls_tcsetattr (plat : Platform) (sys : SerialSyscalls)
    (s : SbgInterface) (name : String) (baudRate : Nat)
    (hopen : sys.openResult ≠ -1) (hfcntl : sys.fcntlResult ≠ -1)
    (hget : sys.tcgetattrResult ≠ -1) (hispeed : sys.cfsetispeedResult ≠ -1)
    (hospeed : sys.cfsetospeedResult ≠ -1) :
    Call.callTcsetattr sys.openResult
        (plat.cfsetospeed
          (plat.cfsetispeed (defineComPortOptions plat sys.tcgetattrOptions)
            (sbgInterfaceSerialGetBaudRateConst plat baudRate))
          (sbgInterfaceSerialGetBaudRateConst plat baudRate)) ∈
      (sbgInterfaceSerialCreate plat sys (some s) (some name) baudRate).calls := by
  unfold sbgInterfaceSerialCreate
  by_cases h6 : sys.tcsetattrResult = -1
  · simp [hopen, hfcntl, hget, hispeed, hospeed, h6]
  · simp [hopen, hfcntl, hget, hispeed, hospeed, h6]

/-- On Linux, from a line that tcgetattr reports as 7 data bits, even parity, two stop bits
and hardware flow control, at 115200 baud: the options passed to tcsetattr carry
c_cflag = CLOCAL | CREAD | CS8 | B115200 = 0o14262. -/
theorem linux_tcsetattr_options :
    Call.callTcsetattr 3
        { c_iflag := 0, c_oflag := 0o4, c_cflag := 0o14262, c_lflag := 0,
          c_cc := [3, 28, 127, 21, 4, 1, 0, 0], ispeed := 0o10002, ospeed := 0o10002 } ∈
      (sbgInterfaceSerialCreate linuxPlatform allCallsSucceed (some staleInterface)
        (some "/dev/ttyUSB0") 115200).calls := by
  decide

/-- C17: on a platform whose control flag constants are independent bit fields and whose
speed calls leave those fields alone, for every options value returned by tcgetattr, when
open, fcntl, tcgetattr, cfsetispeed and cfsetospeed succeed, sbgInterfaceSerialCreate calls
tcsetattr exactly with one options value, and the c_cflag it passes has the CSIZE field
equal to CS8, has PARENB, CSTOPB and CRTSCTS cleared, and has CLOCAL and CREAD set. -/
theorem serialCreate_configures_8N1 (plat : Platform) (sys : SerialSyscalls)
    (s : SbgInterface) (name : String) (baudRate : Nat)
    (hplat : cflagBitsIndependent plat)
    (hspeed : speedCallsKeepControlFlags plat
      (defineComPortOptions plat sys.tcgetattrOptions)
      (sbgInterfaceSerialGetBaudRateConst plat baudRate))
    (hopen : sys.openResult ≠ -1) (hfcntl : sys.fcntlResult ≠ -1)
    (hget : sys.tcgetattrResult ≠ -1) (hispeed : sys.cfsetispeedResult ≠ -1)
    (hospeed : sys.cfsetospeedResult ≠ -1) :
    ∃ options,
      Call.callTcsetattr sys.openResult options ∈
        (sbgInterfaceSerialCreate plat sys (some s) (some name) baudRate).calls ∧
      (∀ fd2 options2, Call.callTcsetattr fd2 options2 ∈
          (sbgInterfaceSerialCreate plat sys (some s) (some name) baudRate).calls →
        fd2 = sys.openResult ∧ options2 = options) ∧
      options.c_cflag &&& plat.CSIZE = plat.CS8 ∧
      options.c_cflag &&& plat.PARENB = 0 ∧
      options.c_cflag &&& plat.CSTOPB = 0 ∧
      options.c_cflag &&& plat.CRTSCTS = 0 ∧
      options.c_cflag &&& plat.CLOCAL = plat.CLOCAL ∧
      options.c_cflag &&& plat.CREAD = plat.CREAD := by
  obtain ⟨hE, hL, hR, hEZ, hEP, hES, hET, hLm, hLT, hRm, hRT⟩ := hplat
  unfold speedCallsKeepControlFlags cflagAfterSpeedCalls at hspeed
  obtain ⟨k1, k2, k3, k4, k5, k6⟩ := hspeed
  refine ⟨_, serialCreate_calls_tcsetattr plat sys s name baudRate hopen hfcntl hget hispeed
    hospeed, ?_, ?_, ?_, ?_, ?_, ?_, ?_⟩
  · intro fd2 options2 hcall
    exact serialCreate_tcsetattr_options plat sys (some s) (some name) baudRate fd2 options2
      hcall
  · rw [k1]
    exact cflag_size_field _ _ _ _ _ _ _ _ hE hEZ hET
  · rw [k2]
    exact cflag_parity_clear _ _ _ _ _ _ _ _ hEP
  · rw [k3]
    exact cflag_stop_clear _ _ _ _ _ _ _ _ hES
  · rw [k4]
    exact cflag_last_clear _ _ _ _ _ _ _ _
  · rw [k5]
    exact cflag_first_set _ _ _ _ _ _ _ _ hL hLm hLT
  · rw [k6]
    exact cflag_second_set _ _ _ _ _ _ _ _ hR hRm hRT

/-- Instance of C17 on Linux at 115200 baud, from a line that tcgetattr reports as 7 data
bits, even parity, two stop bits and hardware flow control. -/
theorem serialCreate_configures_8N1_witness :
    ∃ options,
      Call.callTcsetattr allCallsSucceed.openResult options ∈
        (sbgInterfaceSerialCreate linuxPlatform allCallsSucceed (some staleInterface)
          (some "/dev/ttyUSB0") 115200).calls ∧
      (∀ fd2 options2, Call.callTcsetattr fd2 options2 ∈
          (sbgInterfaceSerialCreate linuxPlatform allCallsSucceed (some staleInterface)
            (some "/dev/ttyUSB0") 115200).calls →
        fd2 = allCallsSucceed.openResult ∧ options2 = options) ∧
      options.c_cflag &&& linuxPlatform.CSIZE = linuxPlatform.CS8 ∧
      options.c_cflag &&& linuxPlatform.PARENB = 0 ∧
      options.c_cflag &&& linuxPlatform.CSTOPB = 0 ∧
      options.c_cflag &&& linuxPlatform.CRTSCTS = 0 ∧
      options.c_cflag &&& linuxPlatform.CLOCAL = linuxPlatform.CLOCAL ∧
      options.c_cflag &&& linuxPlatform.CREAD = linuxPlatform.CREAD :=
  serialCreate_configures_8N1 linuxPlatform allCallsSucceed staleInterface "/dev/ttyUSB0"
    115200 (by decide) (by decide) (by decide) (by decide) (by decide) (by decide)
    (by decide)

/-! ## The serial write loop -/

theorem uint32OfInt_of_count (r : Int) (count : Nat) (h0 : 0 ≤ r) (h1 : r ≤ count)
    (hc : count < 2 ^ 32) : uint32OfInt r = r.toNat := by
  unfold uint32OfInt
  omega

theorem uint32OfInt_neg_one : uint32OfInt (-1) = 4294967295 := by
  decide

theorem serialWriteLoop_done (write : Nat → Nat → Nat → Int) (fd : Int)
    (fuel k offset : Nat) :
    serialWriteLoop write fd fuel k 0 offset = some (.SBG_NO_ERROR, []) := by
  cases fuel <;> simp [serialWriteLoop]

theorem serialWriteLoop_step (write : Nat → Nat → Nat → Int) (fd : Int)
    (fuel k left offset : Nat) (hleft : 0 < left) :
    serialWriteLoop write fd (fuel + 1) k left offset =
      if uint32OfInt (write k offset left) = uint32OfInt (-1) then
        some (.SBG_WRITE_ERROR, [⟨fd, offset, left, write k offset left⟩])
      else
        match serialWriteLoop write fd fuel (k + 1)
            ((left + 2 ^ 32 - uint32OfInt (write k offset left)) % 2 ^ 32)
            (offset + uint32OfInt (write k offset left)) with
        | some (code, calls) => some (code, ⟨fd, offset, left, write k offset left⟩ :: calls)
        | none => none := by
  simp [serialWriteLoop, hleft]

/-- After a `write` result allowed by its contract (-1, or a count between 0 and the count
asked for) that is not taken for a failure, the loop has that many bytes less to write. -/
theorem valid_step (r : Int) (left : Nat) (hl : left < 2 ^ 32)
    (hv : r = -1 ∨ (0 ≤ r ∧ r ≤ (left : Int)))
    (hne : uint32OfInt r ≠ uint32OfInt (-1)) :
    0 ≤ r ∧ r ≤ (left : Int) ∧ uint32OfInt r = r.toNat ∧
      (left + 2 ^ 32 - uint32OfInt r) % 2 ^ 32 = left - r.toNat ∧ r.toNat ≤ left := by
  rcases hv with h | ⟨h0, h1⟩
  · rw [h] at hne
    exact absurd rfl hne
  · have hu := uint32OfInt_of_count r left h0 h1 hl
    rw [hu]
    refine ⟨h0, h1, rfl, ?_, ?_⟩ <;> omega

theorem serialWriteLoop_no_error (write : Nat → Nat → Nat → Int) (fd : Int)
    (hvalid : ∀ k off cnt, write k off cnt = -1 ∨
      (0 ≤ write k off cnt ∧ write k off cnt ≤ (cnt : Int)))
    (buffer : List Nat) :
    ∀ (fuel k left offset : Nat) (calls : List WriteCall), left < 2 ^ 32 →
      offset + left = buffer.length →
      serialWriteLoop write fd fuel k left offset = some (.SBG_NO_ERROR, calls) →
      (calls.map (acceptedChunk buffer)).flatten = buffer.drop offset ∧
      ∀ c ∈ calls, c.result ≠ -1 := by
  intro fuel
  induction fuel with
  | zero =>
    intro k left offset calls hl hsum hrun
    by_cases hleft : 0 < left
    · simp [serialWriteLoop, hleft] at hrun
    · have h0 : left = 0 := by omega
      subst h0
      rw [serialWriteLoop_done] at hrun
      simp only [Option.some.injEq, Prod.mk.injEq, true_and] at hrun
      subst hrun
      have : buffer.length ≤ offset := by omega
      simp [List.drop_of_length_le this]
  | succ fuel ih =>
    intro k left offset calls hl hsum hrun
    by_cases hleft : 0 < left
    · rw [serialWriteLoop_step write fd fuel k left offset hleft] at hrun
      by_cases hne : uint32OfInt (write k offset left) = uint32OfInt (-1)
      · simp [hne] at hrun
      · rw [if_neg hne] at hrun
        obtain ⟨h0, h1, hu, hsub, hle⟩ := valid_step _ left hl (hvalid k offset left) hne
        rw [hsub, hu] at hrun
        cases hrec : serialWriteLoop write fd fuel (k + 1) (left - (write k offset left).toNat)
            (offset + (write k offset left).toNat) with
        | none =>
          rw [hrec] at hrun
          simp at hrun
        | some res =>
          obtain ⟨code, rest⟩ := res
          simp only [hrec, Option.some.injEq, Prod.mk.injEq] at hrun
          obtain ⟨hcode, hcalls⟩ := hrun
          subst hcode
          subst hcalls
          have hih := ih (k + 1) (left - (write k offset left).toNat)
            (offset + (write k offset left).toNat) rest (by omega) (by omega) hrec
          constructor
          · simp only [List.map_cons, List.flatten_cons, hih.1, acceptedChunk]
            rw [← List.drop_drop]
            exact List.take_append_drop _ _
          · intro c hc
            simp only [List.mem_cons] at hc
            rcases hc with hc | hc
            · subst hc
              intro hneg
              simp only at hneg
              rw [hneg] at hne
              exact hne rfl
            · exact hih.2 c hc
    · have h0 : left = 0 := by omega
      subst h0
      rw [serialWriteLoop_done] at hrun
      simp only [Option.some.injEq, Prod.mk.injEq, true_and] at hrun
      subst hrun
      have : buffer.length ≤ offset := by omega
      simp [List.drop_of_length_le this]

theorem totalAccepted_cons (c : WriteCall) (calls : List WriteCall) :
    totalAccepted (c :: calls) = c.result.toNat + totalAccepted calls := by
  simp [totalAccepted]

theorem serialWriteLoop_offsets (write : Nat → Nat → Nat → Int) (fd : Int)
    (hvalid : ∀ k off cnt, write k off cnt = -1 ∨
      (0 ≤ write k off cnt ∧ write k off cnt ≤ (cnt : Int))) :
    ∀ (fuel k left offset : Nat) (code : SbgErrorCode) (calls pre post : List WriteCall)
      (c : WriteCall), left < 2 ^ 32 →
      serialWriteLoop write fd fuel k left offset = some (code, calls) →
      calls = pre ++ c :: post →
      c.offset = offset + totalAccepted pre ∧ c.count + totalAccepted pre = left := by
  intro fuel
  induction fuel with
  | zero =>
    intro k left offset code calls pre post c hl hrun hsplit
    by_cases hleft : 0 < left
    · simp [serialWriteLoop, hleft] at hrun
    · have h0 : left = 0 := by omega
      subst h0
      rw [serialWriteLoop_done] at hrun
      simp only [Option.some.injEq, Prod.mk.injEq] at hrun
      rw [← hrun.2] at hsplit
      simp at hsplit
  | succ fuel ih =>
    intro k left offset code calls pre post c hl hrun hsplit
    by_cases hleft : 0 < left
    · rw [serialWriteLoop_step write fd fuel k left offset hleft] at hrun
      by_cases hne : uint32OfInt (write k offset left) = uint32OfInt (-1)
      · simp only [hne, if_true, Option.some.injEq, Prod.mk.injEq] at hrun
        rw [← hrun.2] at hsplit
        cases pre with
        | nil =>
          simp only [List.nil_append, List.cons.injEq] at hsplit
          rw [← hsplit.1]
          simp [totalAccepted]
        | cons p pre2 =>
          simp at hsplit
      · rw [if_neg hne] at hrun
        obtain ⟨h0, h1, hu, hsub, hle⟩ := valid_step _ left hl (hvalid k offset left) hne
        rw [hsub, hu] at hrun
        cases hrec : serialWriteLoop write fd fuel (k + 1) (left - (write k offset left).toNat)
            (offset + (write k offset left).toNat) with
        | none =>
          rw [hrec] at hrun
          simp at hrun
        | some res =>
          obtain ⟨code2, rest⟩ := res
          simp only [hrec, Option.some.injEq, Prod.mk.injEq] at hrun
          obtain ⟨hcode, hcalls⟩ := hrun
          rw [← hcalls] at hsplit
          cases pre with
          | nil =>
            simp only [List.nil_append, List.cons.injEq] at hsplit
            rw [← hsplit.1]
            simp [totalAccepted]
          | cons p pre2 =>
            simp only [List.cons_append, List.cons.injEq] at hsplit
            have hih := ih (k + 1) (left - (write k offset left).toNat)
              (offset + (write k offset left).toNat) code2 rest pre2 post c (by omega) hrec
              hsplit.2
            rw [totalAccepted_cons, ← hsplit.1]
            simp only
            omega
    · have h0 : left = 0 := by omega
      subst h0
      rw [serialWriteLoop_done] at hrun
      simp only [Option.some.injEq, Prod.mk.injEq] at hrun
      rw [← hrun.2] at hsplit
      simp at hsplit

theorem serialWriteLoop_error_last (write : Nat → Nat → Nat → Int) (fd : Int) :
    ∀ (fuel k left offset : Nat) (code : SbgErrorCode) (calls pre post : List WriteCall)
      (c : WriteCall),
      serialWriteLoop write fd fuel k left offset = some (code, calls) →
      calls = pre ++ c :: post → c.result = -1 →
      code = .SBG_WRITE_ERROR ∧ post = [] := by
  intro fuel
  induction fuel with
  | zero =>
    intro k left offset code calls pre post c hrun hsplit hres
    by_cases hleft : 0 < left
    · simp [serialWriteLoop, hleft] at hrun
    · have h0 : left = 0 := by omega
      subst h0
      rw [serialWriteLoop_done] at hrun
      simp only [Option.some.injEq, Prod.mk.injEq] at hrun
      rw [← hrun.2] at hsplit
      simp at hsplit
  | succ fuel ih =>
    intro k left offset code calls pre post c hrun hsplit hres
    by_cases hleft : 0 < left
    · rw [serialWriteLoop_step write fd fuel k left offset hleft] at hrun
      by_cases hne : uint32OfInt (write k offset left) = uint32OfInt (-1)
      · simp only [hne, if_true, Option.some.injEq, Prod.mk.injEq] at hrun
        rw [← hrun.2] at hsplit
        cases pre with
        | nil =>
          simp only [List.nil_append, List.cons.injEq] at hsplit
          exact ⟨hrun.1.symm, hsplit.2.symm⟩
        | cons p pre2 =>
          simp at hsplit
      · rw [if_neg hne] at hrun
        cases hrec : serialWriteLoop write fd fuel (k + 1)
            ((left + 2 ^ 32 - uint32OfInt (write k offset left)) % 2 ^ 32)
            (offset + uint32OfInt (write k offset left)) with
        | none =>
          rw [hrec] at hrun
          simp at hrun
        | some res =>
          obtain ⟨code2, rest⟩ := res
          simp only [hrec, Option.some.injEq, Prod.mk.injEq] at hrun
          obtain ⟨hcode, hcalls⟩ := hrun
          rw [← hcalls] at hsplit
          cases pre with
          | nil =>
            simp only [List.nil_append, List.cons.injEq] at hsplit
            rw [← hsplit.1] at hres
            simp only at hres
            rw [hres] at hne
            exact absurd rfl hne
          | cons p pre2 =>
            simp only [List.cons_append, List.cons.injEq] at hsplit
            have hih := ih (k + 1) _ _ code2 rest pre2 post c hrec hsplit.2 hres
            exact ⟨hcode ▸ hih.1, hih.2⟩
    · have h0 : left = 0 := by omega
      subst h0
      rw [serialWriteLoop_done] at hrun
      simp only [Option.some.injEq, Prod.mk.injEq] at hrun
      rw [← hrun.2] at hsplit
      simp at hsplit

theorem serialWriteLoop_returns_at_failure (write : Nat → Nat → Nat → Int) (fd : Int) :
    ∀ (fuel k left offset j : Nat), (∀ off cnt, write (k + j) off cnt = -1) → j < fuel →
      ∃ code calls, serialWriteLoop write fd fuel k left offset = some (code, calls) ∧
        calls.length ≤ j + 1 := by
  intro fuel
  induction fuel with
  | zero =>
    intro k left offset j _ hj
    omega
  | succ fuel ih =>
    intro k left offset j hfail hj
    by_cases hleft : 0 < left
    · rw [serialWriteLoop_step write fd fuel k left offset hleft]
      by_cases hne : uint32OfInt (write k offset left) = uint32OfInt (-1)
      · rw [if_pos hne]
        exact ⟨_, _, rfl, by simp⟩
      · rw [if_neg hne]
        cases j with
        | zero =>
          have := hfail offset left
          simp only [Nat.add_zero] at this
          rw [this] at hne
          exact absurd rfl hne
        | succ j2 =>
          have hfail2 : ∀ off cnt, write (k + 1 + j2) off cnt = -1 := by
            intro off cnt
            have := hfail off cnt
            rwa [show k + (j2 + 1) = k + 1 + j2 by omega] at this
          obtain ⟨code, calls, hrun, hlen⟩ := ih (k + 1)
            ((left + 2 ^ 32 - uint32OfInt (write k offset left)) % 2 ^ 32)
            (offset + uint32OfInt (write k offset left)) j2 hfail2 (by omega)
          rw [hrun]
          exact ⟨_, _, rfl, by simp; omega⟩
    · have h0 : left = 0 := by omega
      subst h0
      rw [serialWriteLoop_done]
      exact ⟨_, _, rfl, by simp⟩

theorem serialWriteLoop_terminates (write : Nat → Nat → Nat → Int) (fd : Int)
    (hprogress : ∀ k off cnt, 0 < cnt → write k off cnt = -1 ∨
      (1 ≤ write k off cnt ∧ write k off cnt ≤ (cnt : Int))) :
    ∀ (fuel k left offset : Nat), left < 2 ^ 32 → left ≤ fuel →
      ∃ code calls, serialWriteLoop write fd fuel k left offset = some (code, calls) ∧
        calls.length ≤ left ∧ (left = 0 → code = .SBG_NO_ERROR) := by
  intro fuel
  induction fuel with
  | zero =>
    intro k left offset hl hfuel
    have h0 : left = 0 := by omega
    subst h0
    rw [serialWriteLoop_done]
    exact ⟨_, _, rfl, by simp, fun _ => rfl⟩
  | succ fuel ih =>
    intro k left offset hl hfuel
    by_cases hleft : 0 < left
    · rw [serialWriteLoop_step write fd fuel k left offset hleft]
      by_cases hne : uint32OfInt (write k offset left) = uint32OfInt (-1)
      · rw [if_pos hne]
        exact ⟨_, _, rfl, by simp; omega, fun h => by omega⟩
      · rw [if_neg hne]
        have hv : write k offset left = -1 ∨
            (0 ≤ write k offset left ∧ write k offset left ≤ (left : Int)) := by
          rcases hprogress k offset left hleft with h | ⟨h1, h2⟩
          · exact Or.inl h
          · exact Or.inr ⟨by omega, h2⟩
        obtain ⟨h0, h1, hu, hsub, hle⟩ := valid_step _ left hl hv hne
        have hpos : 1 ≤ write k offset left := by
          rcases hprogress k offset left hleft with h | ⟨h1, _⟩
          · rw [h] at hne
            exact absurd rfl hne
          · exact h1
        rw [hsub, hu]
        obtain ⟨code, calls, hrun, hlen, _⟩ := ih (k + 1) (left - (write k offset left).toNat)
          (offset + (write k offset left).toNat) (by omega) (by omega)
        rw [hrun]
        refine ⟨_, _, rfl, ?_, fun h => by omega⟩
        simp only [List.length_cons]
        omega
    · have h0 : left = 0 := by omega
      subst h0
      rw [serialWriteLoop_done]
      exact ⟨_, _, rfl, by simp, fun _ => rfl⟩

/-- C19: for every non-NULL handle and buffer and every behaviour of the underlying write
within its contract (each call returns -1 or a count between 0 and the count asked for),
whenever sbgInterfaceSerialWrite returns SBG_NO_ERROR the chunks accepted by the successive
writes, concatenated in call order, are the buffer exactly and no write has failed; every
call starts at the offset equal to the total accepted so far and asks for what is left; a
write that returns -1 is the last one and the return code is then SBG_WRITE_ERROR; and when
the call number j of write fails, the function returns within j + 1 calls. -/
theorem serialWrite_no_error_all_written (write : Nat → Nat → Nat → Int)
    (hvalid : ∀ k off cnt, write k off cnt = -1 ∨
      (0 ≤ write k off cnt ∧ write k off cnt ≤ (cnt : Int)))
    (fuel : Nat) (s : SbgInterface) (buffer : List Nat) (hlen : buffer.length < 2 ^ 32)
    (code : SbgErrorCode) (calls : List WriteCall)
    (hrun : sbgInterfaceSerialWrite write fuel (some s) (some buffer) buffer.length =
      some (code, calls)) :
    (code = .SBG_NO_ERROR →
      (calls.map (acceptedChunk buffer)).flatten = buffer ∧ ∀ c ∈ calls, c.result ≠ -1) ∧
    (∀ pre c post, calls = pre ++ c :: post →
      c.offset = totalAccepted pre ∧ c.count + totalAccepted pre = buffer.length) ∧
    (∀ pre c post, calls = pre ++ c :: post → c.result = -1 →
      code = .SBG_WRITE_ERROR ∧ post = []) ∧
    (∀ j, (∀ off cnt, write j off cnt = -1) →
      ∃ code2 calls2,
        sbgInterfaceSerialWrite write (j + 1) (some s) (some buffer) buffer.length =
          some (code2, calls2) ∧ calls2.length ≤ j + 1) := by
  simp only [sbgInterfaceSerialWrite] at hrun ⊢
  refine ⟨?_, ?_, ?_, ?_⟩
  · intro hcode
    subst hcode
    have h := serialWriteLoop_no_error write _ hvalid buffer fuel 0 buffer.length 0 calls hlen
      (by omega) hrun
    simpa using h
  · intro pre c post hsplit
    have h := serialWriteLoop_offsets write _ hvalid fuel 0 buffer.length 0 code calls pre
      post c hlen hrun hsplit
    simpa using h
  · intro pre c post hsplit hres
    exact serialWriteLoop_error_last write _ fuel 0 buffer.length 0 code calls pre post c
      hrun hsplit hres
  · intro j hfail
    exact serialWriteLoop_returns_at_failure write _ (j + 1) 0 buffer.length 0 j
      (by simpa using hfail) (by omega)

/-- Instance of C19: five bytes written through a write that accepts two bytes per call,
in three calls at offsets 0, 2 and 4. -/
theorem serialWrite_no_error_all_written_witness :
    (SbgErrorCode.SBG_NO_ERROR = .SBG_NO_ERROR →
      (([⟨57005, 0, 5, 2⟩, ⟨57005, 2, 3, 2⟩, ⟨57005, 4, 1, 1⟩] : List WriteCall).map
        (acceptedChunk [10, 20, 30, 40, 50])).flatten = [10, 20, 30, 40, 50] ∧
      ∀ c ∈ ([⟨57005, 0, 5, 2⟩, ⟨57005, 2, 3, 2⟩, ⟨57005, 4, 1, 1⟩] : List WriteCall),
        c.result ≠ -1) ∧
    (∀ pre c post,
      ([⟨57005, 0, 5, 2⟩, ⟨57005, 2, 3, 2⟩, ⟨57005, 4, 1, 1⟩] : List WriteCall) =
        pre ++ c :: post →
      c.offset = totalAccepted pre ∧
        c.count + totalAccepted pre = [10, 20, 30, 40, 50].length) ∧
    (∀ pre c post,
      ([⟨57005, 0, 5, 2⟩, ⟨57005, 2, 3, 2⟩, ⟨57005, 4, 1, 1⟩] : List WriteCall) =
        pre ++ c :: post → c.result = -1 →
      SbgErrorCode.SBG_NO_ERROR = .SBG_WRITE_ERROR ∧ post = []) ∧
    (∀ j, (∀ off cnt, acceptsTwoBytes j off cnt = -1) →
      ∃ code2 calls2,
        sbgInterfaceSerialWrite acceptsTwoBytes (j + 1) (some staleInterface)
          (some [10, 20, 30, 40, 50]) [10, 20, 30, 40, 50].length =
          some (code2, calls2) ∧ calls2.length ≤ j + 1) :=
  serialWrite_no_error_all_written acceptsTwoBytes
    (fun _ _ cnt => Or.inr (by unfold acceptsTwoBytes; split <;> omega))
    10 staleInterface [10, 20, 30, 40, 50] (by decide) .SBG_NO_ERROR
    [⟨57005, 0, 5, 2⟩, ⟨57005, 2, 3, 2⟩, ⟨57005, 4, 1, 1⟩] (by decide)

/-- C20: if every underlying write call either fails with -1 or accepts at least 1 and at
most the count asked for, sbgInterfaceSerialWrite returns after at most bytesToWrite calls
of write: as many iterations as bytes to send are always enough; with bytesToWrite = 0 it
makes no call and returns SBG_NO_ERROR. -/
theorem serialWrite_bounded (write : Nat → Nat → Nat → Int)
    (hprogress : ∀ k off cnt, 0 < cnt → write k off cnt = -1 ∨
      (1 ≤ write k off cnt ∧ write k off cnt ≤ (cnt : Int)))
    (s : SbgInterface) (buffer : List Nat) (bytesToWrite fuel : Nat)
    (hsize : bytesToWrite < 2 ^ 32) (hfuel : bytesToWrite ≤ fuel) :
    ∃ code calls,
      sbgInterfaceSerialWrite write fuel (some s) (some buffer) bytesToWrite =
        some (code, calls) ∧
      calls.length ≤ bytesToWrite ∧
      (bytesToWrite = 0 → code = .SBG_NO_ERROR ∧ calls = []) := by
  obtain ⟨code, calls, hrun, hcount, hzero⟩ :=
    serialWriteLoop_terminates write (int32OfVoidPtr s.handle) hprogress fuel 0 bytesToWrite 0
      hsize hfuel
  refine ⟨code, calls, hrun, hcount, fun h => ⟨hzero h, ?_⟩⟩
  subst h
  exact List.length_eq_zero.mp (Nat.le_zero.mp hcount)

/-- Instance of C20: five bytes through a write that accepts two bytes per call, run for
exactly five iterations. -/
theorem serialWrite_bounded_witness :
    ∃ code calls,
      sbgInterfaceSerialWrite acceptsTwoBytes 5 (some staleInterface)
        (some [10, 20, 30, 40, 50]) 5 = some (code, calls) ∧
      calls.length ≤ 5 ∧
      ((5 : Nat) = 0 → code = .SBG_NO_ERROR ∧ calls = []) :=
  serialWrite_bounded acceptsTwoBytes
    (fun _ _ cnt hcnt => Or.inr (by unfold acceptsTwoBytes; split <;> omega))
    staleInterface [10, 20, 30, 40, 50] 5 5 (by decide) (by decide)

/-! ## A write that makes no progress -/

/-- With an underlying write that always accepts 0 bytes, the loop is still running after
any number of iterations. -/
theorem serialWriteLoop_stalls (write : Nat → Nat → Nat → Int) (fd : Int)
    (hzero : ∀ k off cnt, write k off cnt = 0) :
    ∀ (fuel k left offset : Nat), 0 < left → left < 2 ^ 32 →
      serialWriteLoop write fd fuel k left offset = none := by
  intro fuel
  induction fuel with
  | zero =>
    intro k left offset hleft _
    simp [serialWriteLoop, hleft]
  | succ fuel ih =>
    intro k left offset hleft hl
    have hne : uint32OfInt 0 ≠ uint32OfInt (-1) := by decide
    have hu : uint32OfInt 0 = 0 := by decide
    rw [serialWriteLoop_step write fd fuel k left offset hleft, hzero, if_neg hne, hu]
    have hsame : (left + 2 ^ 32 - 0) % 2 ^ 32 = left := by omega
    rw [hsame, ih (k + 1) left (offset + 0) hleft hl]

/-- A write that accepts 0 bytes on the calls before call number j and fails with -1 on
call j makes the loop return SBG_WRITE_ERROR at that call. -/
theorem serialWriteLoop_stall_then_fail (write : Nat → Nat → Nat → Int) (fd : Int) :
    ∀ (fuel k left offset j : Nat), 0 < left → left < 2 ^ 32 → j < fuel →
      (∀ i, i < j → ∀ off cnt, write (k + i) off cnt = 0) →
      (∀ off cnt, write (k + j) off cnt = -1) →
      ∃ calls, serialWriteLoop write fd fuel k left offset = some (.SBG_WRITE_ERROR, calls) ∧
        calls.length = j + 1 ∧ totalAccepted calls = 0 := by
  intro fuel
  induction fuel with
  | zero =>
    intro k left offset j _ _ hj
    omega
  | succ fuel ih =>
    intro k left offset j hleft hl hj hzero hfail
    rw [serialWriteLoop_step write fd fuel k left offset hleft]
    cases j with
    | zero =>
      have hr : write k offset left = -1 := by
        have := hfail offset left
        rwa [Nat.add_zero] at this
      rw [hr, if_pos rfl]
      exact ⟨_, rfl, rfl, by simp [totalAccepted]⟩
    | succ j2 =>
      have hr : write k offset left = 0 := by
        have := hzero 0 (by omega) offset left
        rwa [Nat.add_zero] at this
      have hne : uint32OfInt 0 ≠ uint32OfInt (-1) := by decide
      have hu : uint32OfInt 0 = 0 := by decide
      have hsame : (left + 2 ^ 32 - 0) % 2 ^ 32 = left := by omega
      rw [hr, if_neg hne, hu, hsame]
      have hzero2 : ∀ i, i < j2 → ∀ off cnt, write (k + 1 + i) off cnt = 0 := by
        intro i hi off cnt
        have := hzero (i + 1) (by omega) off cnt
        rwa [show k + (i + 1) = k + 1 + i by omega] at this
      have hfail2 : ∀ off cnt, write (k + 1 + j2) off cnt = -1 := by
        intro off cnt
        have := hfail off cnt
        rwa [show k + (j2 + 1) = k + 1 + j2 by omega] at this
      obtain ⟨calls, hrun, hlen, htotal⟩ :=
        ih (k + 1) left (offset + 0) j2 hleft hl (by omega) hzero2 hfail2
      rw [hrun]
      refine ⟨_, rfl, by simp [hlen], ?_⟩
      rw [totalAccepted_cons, htotal]
      simp

/-- C21, as stated, fails: with one byte to send and an underlying write that keeps
accepting 0 bytes without reporting -1, sbgInterfaceSerialWrite returns nothing, whatever the
number of iterations it is given: it loops forever. -/
theorem serialWrite_zero_progress_never_returns :
    ¬ ∃ fuel code calls,
      sbgInterfaceSerialWrite acceptsNothing fuel (some staleInterface) (some [7]) 1 =
        some (code, calls) := by
  rintro ⟨fuel, code, calls, h⟩
  have hnone := serialWriteLoop_stalls acceptsNothing (int32OfVoidPtr staleInterface.handle)
    (fun _ _ _ => rfl) fuel 0 1 0 (by decide) (by decide)
  simp only [sbgInterfaceSerialWrite] at h
  rw [hnone] at h
  cases h

/-- C21, amended: a transport that cannot make progress surfaces an error through the -1
of its write.  For every behaviour of the underlying write whose call number j reports -1,
sbgInterfaceSerialWrite with bytesToWrite > 0 returns within j + 1 calls; and when the calls
before it accepted 0 bytes, so that no byte was ever accepted, it returns SBG_WRITE_ERROR
after exactly j + 1 calls. -/
theorem serialWrite_stalled_transport_error (write : Nat → Nat → Nat → Int)
    (s : SbgInterface) (buffer : List Nat) (bytesToWrite fuel j : Nat)
    (hpos : 0 < bytesToWrite) (hsize : bytesToWrite < 2 ^ 32) (hfuel : j < fuel)
    (hfail : ∀ off cnt, write j off cnt = -1) :
    (∃ code calls,
      sbgInterfaceSerialWrite write fuel (some s) (some buffer) bytesToWrite =
        some (code, calls) ∧ calls.length ≤ j + 1) ∧
    ((∀ i, i < j → ∀ off cnt, write i off cnt = 0) →
      ∃ calls,
        sbgInterfaceSerialWrite write fuel (some s) (some buffer) bytesToWrite =
          some (.SBG_WRITE_ERROR, calls) ∧
        calls.length = j + 1 ∧ totalAccepted calls = 0) := by
  simp only [sbgInterfaceSerialWrite]
  constructor
  · exact serialWriteLoop_returns_at_failure write _ fuel 0 bytesToWrite 0 j
      (by simpa using hfail) hfuel
  · intro hzero
    exact serialWriteLoop_stall_then_fail write _ fuel 0 bytesToWrite 0 j hpos hsize hfuel
      (by simpa using hzero) (by simpa using hfail)

/-- Instance of the amended C21: one byte to send, a write that accepts 0 bytes twice and
then fails with -1. -/
theorem serialWrite_stalled_transport_error_witness :
    (∃ code calls,
      sbgInterfaceSerialWrite failsAfterTwoStalls 3 (some staleInterface) (some [7]) 1 =
        some (code, calls) ∧ calls.length ≤ 2 + 1) ∧
    ((∀ i, i < 2 → ∀ off cnt, failsAfterTwoStalls i off cnt = 0) →
      ∃ calls,
        sbgInterfaceSerialWrite failsAfterTwoStalls 3 (some staleInterface) (some [7]) 1 =
          some (.SBG_WRITE_ERROR, calls) ∧
        calls.length = 2 + 1 ∧ totalAccepted calls = 0) :=
  serialWrite_stalled_transport_error failsAfterTwoStalls staleInterface [7] 1 3 2
    (by decide) (by decide) (by decide) (fun _ _ => rfl)

/-! ## Reading from the serial interface -/

theorem int32OfInt_of_range (x : Int) (hlo : -2 ^ 31 ≤ x) (hhi : x < 2 ^ 31) :
    int32OfInt x = x := by
  unfold int32OfInt
  split <;> omega

theorem uint32OfInt_of_nonneg (x : Int) (hlo : 0 ≤ x) (hhi : x < 2 ^ 31) :
    uint32OfInt x = x.toNat := by
  unfold uint32OfInt
  omega

/-- With three non-NULL pointers and a positive result that fits `int32`, the read reports
SBG_NO_ERROR and the count. -/
theorem serialRead_positive (r : Int) (s : SbgInterface) (buffer : List Nat)
    (v bytesToRead : Nat) (hpos : 0 < r) (hhi : r < 2 ^ 31) :
    sbgInterfaceSerialRead r (some s) (some buffer) (some v) bytesToRead =
      ⟨.SBG_NO_ERROR, some r.toNat, [⟨int32OfVoidPtr s.handle, bytesToRead⟩]⟩ := by
  have hi := int32OfInt_of_range r (by omega) hhi
  have hu := uint32OfInt_of_nonneg r (by omega) hhi
  simp [sbgInterfaceSerialRead, hi, hu, hpos]

/-- With three non-NULL pointers and a result that is zero or negative, the read reports
SBG_READ_ERROR and a count of 0. -/
theorem serialRead_nonpositive (r : Int) (s : SbgInterface) (buffer : List Nat)
    (v bytesToRead : Nat) (hle : r ≤ 0) (hlo : -2 ^ 31 ≤ r) :
    sbgInterfaceSerialRead r (some s) (some buffer) (some v) bytesToRead =
      ⟨.SBG_READ_ERROR, some 0, [⟨int32OfVoidPtr s.handle, bytesToRead⟩]⟩ := by
  have hi := int32OfInt_of_range r hlo (by omega)
  have hu : uint32OfInt 0 = 0 := by decide
  have hn : ¬ 0 < r := by omega
  simp [sbgInterfaceSerialRead, hi, hu, hn]

/-- C22, at the failing input: when the underlying read returns 0, no error and no data,
sbgInterfaceSerialRead sets the count to 0 as the claim says but returns SBG_READ_ERROR, not
SBG_NO_ERROR. -/
theorem serialRead_no_data_is_read_error :
    sbgInterfaceSerialRead 0 (some staleInterface) (some []) (some 99) 16 =
      ⟨.SBG_READ_ERROR, some 0, [⟨57005, 16⟩]⟩ ∧
    (sbgInterfaceSerialRead 0 (some staleInterface) (some []) (some 99) 16).code ≠
      .SBG_NO_ERROR := by
  decide

/-- C25: for non-NULL pHandle, pBuffer and pReadBytes and an underlying read result r (a
value of the `int32` numBytesRead), sbgInterfaceSerialRead makes one read call and returns
SBG_NO_ERROR with the count r if r > 0, and SBG_READ_ERROR with the count 0 if r <= 0; if
any of the three pointers is NULL it returns SBG_NULL_POINTER, makes no read call and leaves
what pReadBytes points to as it was. -/
theorem serialRead_exact_result (r : Int) (s : SbgInterface) (buffer : List Nat)
    (v bytesToRead : Nat) (pHandle : Option SbgInterface) (pBuffer : Option (List Nat))
    (pReadBytes : Option Nat) (hlo : -2 ^ 31 ≤ r) (hhi : r < 2 ^ 31) :
    (0 < r →
      sbgInterfaceSerialRead r (some s) (some buffer) (some v) bytesToRead =
        ⟨.SBG_NO_ERROR, some r.toNat, [⟨int32OfVoidPtr s.handle, bytesToRead⟩]⟩) ∧
    (r ≤ 0 →
      sbgInterfaceSerialRead r (some s) (some buffer) (some v) bytesToRead =
        ⟨.SBG_READ_ERROR, some 0, [⟨int32OfVoidPtr s.handle, bytesToRead⟩]⟩) ∧
    (pHandle = none ∨ pBuffer = none ∨ pReadBytes = none →
      sbgInterfaceSerialRead r pHandle pBuffer pReadBytes bytesToRead =
        ⟨.SBG_NULL_POINTER, pReadBytes, []⟩) := by
  refine ⟨fun hpos => serialRead_positive r s buffer v bytesToRead hpos hhi,
    fun hle => serialRead_nonpositive r s buffer v bytesToRead hle hlo, ?_⟩
  intro hnull
  cases pHandle <;> cases pBuffer <;> cases pReadBytes <;>
    simp_all [sbgInterfaceSerialRead]

/-- Instance of C25 at a failed read, r = -1. -/
theorem serialRead_exact_result_witness :
    ((0 : Int) < -1 →
      sbgInterfaceSerialRead (-1) (some staleInterface) (some []) (some 99) 16 =
        ⟨.SBG_NO_ERROR, some (-1 : Int).toNat,
          [⟨int32OfVoidPtr staleInterface.handle, 16⟩]⟩) ∧
    ((-1 : Int) ≤ 0 →
      sbgInterfaceSerialRead (-1) (some staleInterface) (some []) (some 99) 16 =
        ⟨.SBG_READ_ERROR, some 0, [⟨int32OfVoidPtr staleInterface.handle, 16⟩]⟩) ∧
    ((none : Option SbgInterface) = none ∨ (some [] : Option (List Nat)) = none ∨
        (some 99 : Option Nat) = none →
      sbgInterfaceSerialRead (-1) none (some []) (some 99) 16 =
        ⟨.SBG_NULL_POINTER, some 99, []⟩) :=
  serialRead_exact_result (-1) staleInterface [] 99 16 none (some []) (some 99)
    (by decide) (by decide)

/-! ## Baud rates -/

/-- C23, at the failing input: on a valid interface whose tcflush succeeds,
sbgInterfaceSerialChangeBaudrate returns SBG_NO_ERROR having made a single tcflush call: no
tcgetattr, cfsetispeed, cfsetospeed or tcsetattr, so the speeds of the port are not set.
Whatever tcflush returns, the outcome does not depend on baudRate and is that of
sbgInterfaceSerialFlush. -/
theorem changeBaudrate_only_flushes (tcflushResult : Int) (s : SbgInterface)
    (baudRate otherBaudRate : Nat) :
    sbgInterfaceSerialChangeBaudrate 0 (some s) baudRate =
      (.SBG_NO_ERROR, [.callTcflush (int32OfVoidPtr s.handle)]) ∧
    sbgInterfaceSerialChangeBaudrate tcflushResult (some s) baudRate =
      sbgInterfaceSerialChangeBaudrate tcflushResult (some s) otherBaudRate ∧
    sbgInterfaceSerialChangeBaudrate tcflushResult (some s) baudRate =
      sbgInterfaceSerialFlush tcflushResult (some s) :=
  ⟨rfl, rfl, rfl⟩

/-- C24: for every baudRate other than 9600, 19200, 38400, 57600, 115200, 230400, 460800 and
921600, sbgInterfaceSerialGetBaudRateConst returns baudRate itself; the function has no
error result. -/
theorem getBaudRateConst_unsupported (plat : Platform) (baudRate : Nat)
    (h : baudRate ≠ 9600 ∧ baudRate ≠ 19200 ∧ baudRate ≠ 38400 ∧ baudRate ≠ 57600 ∧
      baudRate ≠ 115200 ∧ baudRate ≠ 230400 ∧ baudRate ≠ 460800 ∧ baudRate ≠ 921600) :
    sbgInterfaceSerialGetBaudRateConst plat baudRate = baudRate := by
  obtain ⟨h1, h2, h3, h4, h5, h6, h7, h8⟩ := h
  simp [sbgInterfaceSerialGetBaudRateConst, h1, h2, h3, h4, h5, h6, h7, h8]

/-- Instance of C24 at 1200 baud on Linux. -/
theorem getBaudRateConst_unsupported_witness :
    sbgInterfaceSerialGetBaudRateConst linuxPlatform 1200 = 1200 :=
  getBaudRateConst_unsupported linuxPlatform 1200 (by decide)

/-! ## The descriptor in the interface handle -/

/-- The low 32 bits of the stored pointer are those of the descriptor. -/
theorem voidPtr_low_bits (plat : Platform) (fd : Int) (hW : 32 ≤ plat.pointerBits) :
    ((voidPtrOfInt32 plat fd % 2 ^ 32 : Nat) : Int) = fd % 2 ^ 32 := by
  unfold voidPtrOfInt32
  obtain ⟨k, hk⟩ := Nat.exists_eq_add_of_le hW
  have hpos : (0 : Int) < 2 ^ plat.pointerBits := by positivity
  have hnonneg : 0 ≤ fd % 2 ^ plat.pointerBits := Int.emod_nonneg _ (ne_of_gt hpos)
  have hdvd : (2 : Int) ^ 32 ∣ 2 ^ plat.pointerBits := by
    rw [hk, pow_add]
    exact Dvd.intro _ rfl
  rw [Int.natCast_mod, Int.toNat_of_nonneg hnonneg]
  push_cast
  exact Int.emod_emod_of_dvd fd hdvd

/-- C26: on a platform whose pointers have at least 32 bits, for every 32-bit signed file
descriptor fd, the handle stored by sbgInterfaceSerialCreate, `(void*)fd`, read back as the
serial read, write, flush and destroy functions do, `(int32)pHandle->handle`, is fd
again. -/
theorem handle_roundtrip (plat : Platform) (fd : Int) (hW : 32 ≤ plat.pointerBits)
    (hlo : -2 ^ 31 ≤ fd) (hhi : fd < 2 ^ 31) :
    int32OfVoidPtr (voidPtrOfInt32 plat fd) = fd := by
  have h := voidPtr_low_bits plat fd hW
  unfold int32OfVoidPtr
  generalize voidPtrOfInt32 plat fd % 2 ^ 32 = t at h ⊢
  split <;> omega

/-- Instance of C26 on Linux (64-bit pointers) at the descriptor -1, stored as the all-ones
pointer. -/
theorem handle_roundtrip_witness :
    int32OfVoidPtr (voidPtrOfInt32 linuxPlatform (-1)) = -1 :=
  handle_roundtrip linuxPlatform (-1) (by decide) (by decide) (by decide)

end SbgECom
